import Mathlib

/-!
# meshplay-consul: component dispatch, operation dispatch and multi-target fan-out

A shallow embedding of `consul/oam.go` and `consul/operations.go`.

* Go `error` values are records carrying a classification and the text returned by `Error()`;
  a `nil` error is `none`.
* External collaborators (chart installer, manifest routine, cluster client, endpoint
  resolver, classifier, configuration constants) are fields of `Env`.
* Goroutines and `sync.WaitGroup` are modelled by an interleaving machine driven by an
  arbitrary schedule: each step runs one atomic action of the spawning routine or of one
  live goroutine, and `wg.Wait()` is enabled only while the counter is zero.
* `fmt.Errorf` applied to a non-constant format string is modelled by the zero-operand
  instance of the formatter of Go's `fmt` package.
-/

namespace Consul

/-! ## Failures -/

/-- Origin of a Go `error` value. -/
inductive ErrKind where
  | fmtError
  | opInvalid
  | consulCoreComponentFail
  | parseConsulCoreComponent
  | collaborator
  deriving DecidableEq, Repr

/-- A non-nil Go `error`: its origin and the text returned by `Error()`. -/
structure GoError where
  kind : ErrKind
  text : String
  deriving DecidableEq, Repr

/-! ## Go `fmt` with zero operands

`fmt.Errorf(format)` and `fmt.Sprintf(format)` called with a format string and no operands.
The functions below follow `fmt.doPrintf`, `fmt.parsenum`, `fmt.parseArgNumber` and
`(*pp).argNumber` of the Go standard library with `len(a) = 0`. Strings are sequences of
Unicode code points; all characters the formatter inspects are ASCII, so scanning code points
agrees with scanning the bytes of valid UTF-8 text. -/

namespace Fmt

/-- The word `percentBangString` of package fmt. -/
def percentBangString : List Char := "%!".toList
/-- The word `missingString` of package fmt. -/
def missingString : List Char := "(MISSING)".toList
/-- The word `badIndexString` of package fmt. -/
def badIndexString : List Char := "(BADINDEX)".toList
/-- The word `noVerbString` of package fmt. -/
def noVerbString : List Char := "%!(NOVERB)".toList
/-- The word `badWidthString` of package fmt. -/
def badWidthString : List Char := "%!(BADWIDTH)".toList
/-- The word `badPrecString` of package fmt. -/
def badPrecString : List Char := "%!(BADPREC)".toList

/-- Decimal digit test `'0' <= c && c <= '9'`. -/
def isDigit (c : Char) : Bool := decide ('0'.toNat ≤ c.toNat) && decide (c.toNat ≤ '9'.toNat)

/-- Function `tooLarge` of package fmt: `x > 1e6` (the operand is never negative here). -/
def tooLarge (x : Nat) : Bool := decide (1000000 < x)

/-- Loop of `parsenum` over the text `s[start:end]`; returns `(num, isnum, s[newi:end])`.
On overflow Go returns `newi = end`, that is an empty remainder. -/
def parsenumLoop : Nat → Bool → List Char → Nat × Bool × List Char
  | num, isnum, [] => (num, isnum, [])
  | num, isnum, c :: cs =>
    if isDigit c then
      if tooLarge num then (0, false, [])
      else parsenumLoop (num * 10 + (c.toNat - '0'.toNat)) true cs
    else (num, isnum, c :: cs)

/-- Function `parsenum(s, start, end)` on the text `s[start:end]`. -/
def parsenum (s : List Char) : Nat × Bool × List Char := parsenumLoop 0 false s

/-- Number of bytes of the UTF-8 encoding, Go's `len` of a string. -/
def byteLen (s : List Char) : Nat := (s.map Char.utf8Size).sum

/-- Search of `parseArgNumber` for the closing bracket: `inner` holds the characters between
`[` and the current position in reverse. Returns `(index, remainder after the bracket, ok)`,
or `none` when there is no closing bracket. -/
def findBracket : List Char → List Char → Option (Int × List Char × Bool)
  | _, [] => none
  | inner, c :: cs =>
    if c = ']' then
      let r := parsenum inner.reverse
      if !r.2.1 || !r.2.2.isEmpty then some (0, cs, false)
      else some ((r.1 : Int) - 1, cs, true)
    else findBracket (c :: inner) cs

/-- Function `parseArgNumber(format)` for a text starting with `[`:
returns `(index, remainder, ok)`; a failed parse without closing bracket consumes one byte. -/
def parseArgNumber (format : List Char) : Int × List Char × Bool :=
  if byteLen format < 3 then (0, format.drop 1, false)
  else
    match findBracket [] (format.drop 1) with
    | some r => r
    | none => (0, format.drop 1, false)

/-- Method `argNumber` with `numArgs` operands: returns `(remainder, found, goodArgNum)`
where `goodArgNum` is the updated flag of the printer. -/
def argNumber (numArgs : Nat) (goodArgNum : Bool) (format : List Char) :
    List Char × Bool × Bool :=
  match format with
  | '[' :: _ =>
    let r := parseArgNumber format
    if r.2.2 && decide (0 ≤ r.1) && decide (r.1 < (numArgs : Int)) then (r.2.1, true, goodArgNum)
    else (r.2.1, r.2.2, false)
  | _ => (format, false, goodArgNum)

/-- Flag characters skipped by the `simpleFormat` loop. With no operand left the fast path
for simple verbs is never taken. -/
def isFlag (c : Char) : Bool := c = '#' || c = '0' || c = '+' || c = '-' || c = ' '

/-- The width part of a verb with no operands, after the argument index `a1`
(remainder, found, goodArgNum): returns the characters written, the remainder, `afterIndex`
and `goodArgNum`. A `*` finds no operand and writes `badWidthString`. -/
def width (a1 : List Char × Bool × Bool) : List Char × List Char × Bool × Bool :=
  match a1.1 with
  | '*' :: rest => (badWidthString, rest, false, a1.2.2)
  | s => ([], (parsenum s).2.2, a1.2.1, if a1.2.1 && (parsenum s).2.1 then false else a1.2.2)

/-- The precision part of a verb with no operands, after the width part `w`: returns the
characters written, the remainder, `afterIndex` and `goodArgNum`. A `*` finds no operand and
writes `badPrecString`. -/
def precision (w : List Char × List Char × Bool × Bool) :
    List Char × List Char × Bool × Bool :=
  match w.2.1 with
  | '.' :: rest =>
    match (argNumber 0 (if w.2.2.1 then false else w.2.2.2) rest).1 with
    | '*' :: rest2 =>
      (badPrecString, rest2, false, (argNumber 0 (if w.2.2.1 then false else w.2.2.2) rest).2.2)
    | s =>
      ([], (parsenum s).2.2, (argNumber 0 (if w.2.2.1 then false else w.2.2.2) rest).2.1,
        (argNumber 0 (if w.2.2.1 then false else w.2.2.2) rest).2.2)
  | s => ([], s, w.2.2.1, w.2.2.2)

/-- The argument index before the verb character: parsed only when the previous item was not
an index. Returns the remainder and `goodArgNum`. -/
def lastIndex (p : List Char × List Char × Bool × Bool) : List Char × Bool :=
  if !p.2.2.1 then ((argNumber 0 p.2.2.2 p.2.1).1, (argNumber 0 p.2.2.2 p.2.1).2.2)
  else (p.2.1, p.2.2.2)

/-- One verb of `doPrintf` with no operands: the text after `%` is mapped to the characters
written and the remaining format; `none` as remainder stands for `break formatLoop`. The
flags are skipped, then come the argument index, the width, the precision, the argument index
again and the verb character: `%` writes `%`, a bad index writes `%!v(BADINDEX)` and any other
verb `v` finds no operand and writes `%!v(MISSING)`. -/
def verb (afterPercent : List Char) : List Char × Option (List Char) :=
  let w := width (argNumber 0 true (afterPercent.dropWhile isFlag))
  let p := precision w
  match (lastIndex p).1 with
  | [] => (w.1 ++ p.1 ++ noVerbString, none)
  | v :: rest =>
    let out :=
      if v = '%' then ['%']
      else if !(lastIndex p).2 then percentBangString ++ [v] ++ badIndexString
      else percentBangString ++ [v] ++ missingString
    (w.1 ++ p.1 ++ out, some rest)

/-- Loop `formatLoop` of `doPrintf` with no operands; `fuel` bounds the number of characters
and verbs processed. -/
def doPrintf : Nat → List Char → List Char
  | 0, _ => []
  | _ + 1, [] => []
  | n + 1, c :: cs =>
    if c = '%' then
      match verb cs with
      | (out, some rest) => out ++ doPrintf n rest
      | (out, none) => out
    else c :: doPrintf n cs

/-- The call `fmt.Sprintf(format)` with no operands. -/
def Sprintf0 (format : String) : String :=
  String.mk (doPrintf format.length format.toList)

end Fmt

/-- The call `fmt.Errorf(format)` with no operands: a fresh error whose text is the formatted
string. -/
def Errorf0 (format : String) : GoError := ⟨ErrKind.fmtError, Fmt.Sprintf0 format⟩

/-! ## Error/message aggregation (`oam.go`) -/

/-- Function `mergeErrors`: `nil` for an empty list, otherwise
`fmt.Errorf(strings.Join(errMsgs, "\n"))`. -/
def mergeErrors (errs : List GoError) : Option GoError :=
  if errs.length = 0 then none
  else some (Errorf0 (String.intercalate "\n" (errs.map GoError.text)))

/-- Function `mergeMsgs`: `strings.Join(strs, "\n")`. -/
def mergeMsgs (strs : List String) : String := String.intercalate "\n" strs

/-! ## Data model -/

/-- The fields of `v1alpha1.ComponentSpec` read by the adapter. -/
structure ComponentSpec where
  Type_ : String
  Version : String
  Settings : List (String × String)
  deriving DecidableEq, Repr

/-- The fields of `v1alpha1.Component` read by the adapter; Go maps are association lists and
a missing key reads as the empty string. -/
structure Component where
  Name : String
  Namespace : String
  Annotations : List (String × String)
  Labels : List (String × String)
  Spec : ComponentSpec
  deriving DecidableEq, Repr

/-- A trait of a configuration component. -/
structure Trait where
  Name : String
  Properties : List (String × String)
  deriving DecidableEq, Repr

/-- An entry of `config.Spec.Components`. -/
structure ConfigurationComponent where
  ComponentName : String
  Traits : List Trait
  deriving DecidableEq, Repr

/-- The type `v1alpha1.Configuration`, reduced to `Spec.Components`. -/
structure Configuration where
  Components : List ConfigurationComponent
  deriving DecidableEq, Repr

/-- The type `adapter.Operation`: the descriptor stored in the catalog. -/
structure Operation where
  Type_ : Int
  Description : String
  Services : List String
  AdditionalProperties : List (String × String)
  deriving DecidableEq, Repr

/-- The type `adapter.OperationRequest`. -/
structure OperationRequest where
  OperationName : String
  Namespace : String
  IsDeleteOperation : Bool
  OperationID : String
  K8sConfigs : List String
  deriving DecidableEq, Repr

/-- The type `meshes.EventsResponse`. -/
structure EventsResponse where
  OperationId : String
  Summary : String
  Details : String
  Component : String
  ComponentName : String
  ErrorCode : String
  ProbableCause : String
  SuggestedRemediation : String
  deriving DecidableEq, Repr

/-- The generic artifact built by `handleConsulCoreComponents` before serialisation. -/
structure Artifact where
  apiVersion : String
  kind : String
  name : String
  annotations : List (String × String)
  labels : List (String × String)
  spec : List (String × String)
  deriving DecidableEq, Repr

/-- A cluster client returned by `mesherykube.New`. -/
structure KubeClient where
  config : String
  Host : String
  deriving DecidableEq, Repr

/-- The type `mesherykube.ApplyOptions`. -/
structure ApplyOptions where
  Namespace : String
  Update : Bool
  Delete : Bool
  deriving DecidableEq, Repr

/-- An address and port of a service endpoint. -/
structure HostPort where
  Address : String
  Port : Int
  deriving DecidableEq, Repr

/-- The endpoint returned by `mesherykube.GetServiceEndpoint`. -/
structure Endpoint where
  Internal : Option HostPort
  External : Option HostPort
  deriving DecidableEq, Repr

/-- Read of a Go `map[string]string`: the empty string when the key is missing. -/
def mapGet (m : List (String × String)) (key : String) : String := (m.lookup key).getD ""

/-- Observable effects of a call, in the order in which they happen. -/
inductive Effect where
  | StreamInfo (e : EventsResponse)
  | StreamErr (e : EventsResponse) (err : GoError)
  | invokeHandler (comp : Component)
  | applyHelmChart (isDel : Bool) (version : String) (ns : String) (kubeconfigs : List String)
  | applyManifests (request : OperationRequest) (operation : Operation)
      (kubeconfigs : List String)
  | goroutine (k8sconfig : String)
  | New (k8sconfig : String)
  | ApplyManifest (client : KubeClient) (manifest : String) (opts : ApplyOptions)
  | GetServiceEndpoint (client : KubeClient) (svc : String) (ns : String)
  | wgDone
  deriving DecidableEq, Repr

/-- Test for an informational progress event. -/
def Effect.isInfo : Effect → Bool
  | .StreamInfo _ => true
  | _ => false

/-- Test for a failure progress event. -/
def Effect.isErr : Effect → Bool
  | .StreamErr _ _ => true
  | _ => false

/-- Test for a progress event of either kind. -/
def Effect.isEvent (x : Effect) : Bool := x.isInfo || x.isErr

/-- Test for the start of a per-target task. -/
def Effect.isGoroutine : Effect → Bool
  | .goroutine _ => true
  | _ => false

/-- Test for a call of the chart installer. -/
def Effect.isHelm : Effect → Bool
  | .applyHelmChart _ _ _ _ => true
  | _ => false

/-- Test for a call of the manifest-apply routine. -/
def Effect.isManifests : Effect → Bool
  | .applyManifests _ _ _ => true
  | _ => false

/-- The failure carried by a failure progress event. -/
def Effect.failure : Effect → Option GoError
  | .StreamErr _ err => some err
  | _ => none

/-- External collaborators and configuration constants, all outside `consul/oam.go` and
`consul/operations.go`. Calls of collaborators are assumed to return. -/
structure Env where
  /-- The value `config.ServerDefaults["type"]`. -/
  serverType : String
  /-- The value `config.ServerDefaults["name"]`. -/
  serverName : String
  ConsulOperation : String
  CustomOperation : String
  Consul182DemoOperation : String
  HTTPBinOperation : String
  ImageHubOperation : String
  BookInfoOperation : String
  HelmChartVersionKey : String
  /-- The value `adapter.ErrOpInvalid`. -/
  ErrOpInvalid : GoError
  /-- The classifier `errors.GetCode`. -/
  GetCode : GoError → String
  /-- The classifier `errors.GetCause`. -/
  GetCause : GoError → String
  /-- The classifier `errors.GetRemedy`. -/
  GetRemedy : GoError → String
  /-- The result of `uuid.New().String()` at the given loop iteration. -/
  uuid : Nat → String
  /-- The method `h.CreateKubeconfigs`. -/
  CreateKubeconfigs : List String → Option GoError
  /-- The call `h.Config.GetObject(adapter.OperationsKey, &operations)`: the catalog. -/
  GetObject : Except GoError (List (String × Operation))
  /-- The chart installer `h.applyHelmChart`. -/
  applyHelmChart : Bool → String → String → List String → String × Option GoError
  /-- The manifest routine `h.applyManifests`. -/
  applyManifests : OperationRequest → Operation → List String → String × Option GoError
  /-- The method `c.installConsul`, called for the given loop iteration; `none` when the
  call does not return. -/
  installConsul : Nat → Bool → String → String → List String →
    Option (String × Option GoError)
  /-- The constructor `mesherykube.New`. -/
  New : String → Except GoError KubeClient
  /-- The method `kClient.ApplyManifest`. -/
  ApplyManifest : KubeClient → String → ApplyOptions → Option GoError
  /-- The function `mesherykube.GetServiceEndpoint`. -/
  GetServiceEndpoint : KubeClient → String → String → Except GoError Endpoint
  /-- The function `yaml.Marshal` on the generic artifact. -/
  Marshal : Artifact → Except GoError String

/-- Modelled from the spec: `ErrConsulCoreComponentFail` of `consul/error.go`, which is not
part of the sources at hand. Per the spec a missing apiVersion or kind "is a ResolutionError
naming the component": the wrapper classifies the failure and keeps the text of the wrapped
failure, which names the component. -/
def ErrConsulCoreComponentFail (err : GoError) : GoError :=
  ⟨ErrKind.consulCoreComponentFail, err.text⟩

/-- Modelled from the spec: `ErrParseConsulCoreComponent` of `consul/error.go`, which is not
part of the sources at hand. Per the spec an "encoding failure is a SerializationError". -/
def ErrParseConsulCoreComponent (err : GoError) : GoError :=
  ⟨ErrKind.parseConsulCoreComponent, err.text⟩

/-! ## Goroutines and `sync.WaitGroup`

A program consists of a spawning routine and the goroutines it starts, all acting on a shared
state by atomic steps. A schedule is a list of numbers; each number selects one of the
routines that can take a step. -/

/-- A spawning routine (`mainStep`, guarded by `mainEnabled`) together with the body of its
goroutines (`taskStep`). A step returns the new shared state and the continuation of the
goroutine, `none` when it has ended (for `mainStep`: the goroutine started, if any). -/
structure Prog (σ τ : Type) where
  mainEnabled : σ → Bool
  mainStep : σ → σ × Option τ
  taskStep : τ → σ → σ × Option τ

/-- A configuration: the shared state and the live goroutines. -/
structure Conf (σ τ : Type) where
  shared : σ
  running : List τ

/-- Step of the goroutine `t` found at position `i` of the live goroutines: it continues in
place or, when it has ended, leaves the list. -/
def Prog.applyTask {σ τ : Type} (P : Prog σ τ) (i : Nat) (t : τ) (s : Conf σ τ) : Conf σ τ :=
  match P.taskStep t s.shared with
  | (sh, some t') => ⟨sh, s.running.set i t'⟩
  | (sh, none) => ⟨sh, s.running.eraseIdx i⟩

/-- Step of the `i`-th live goroutine. -/
def Prog.stepTask {σ τ : Type} (P : Prog σ τ) (i : Nat) (s : Conf σ τ) : Conf σ τ :=
  match s.running.get? i with
  | none => s
  | some t => P.applyTask i t s

/-- Step of the spawning routine. -/
def Prog.stepMain {σ τ : Type} (P : Prog σ τ) (s : Conf σ τ) : Conf σ τ :=
  match P.mainStep s.shared with
  | (sh, some t) => ⟨sh, s.running ++ [t]⟩
  | (sh, none) => ⟨sh, s.running⟩

/-- One scheduling decision: `c` selects among the routines able to move; when none can move
the configuration stays as it is (deadlock or completion). -/
def Prog.step {σ τ : Type} (P : Prog σ τ) (c : Nat) (s : Conf σ τ) : Conf σ τ :=
  if P.mainEnabled s.shared then
    if c % (s.running.length + 1) = 0 then P.stepMain s
    else P.stepTask (c % (s.running.length + 1) - 1) s
  else if s.running.length = 0 then s
  else P.stepTask (c % s.running.length) s

/-- Execution of a schedule. -/
def Prog.run {σ τ : Type} (P : Prog σ τ) (sched : List Nat) (s : Conf σ τ) : Conf σ τ :=
  sched.foldl (fun s c => P.step c s) s

/-- Result of a call: the effects observed so far and the returned value, `none` while the
call has not returned. -/
structure CallResult (α : Type) where
  trace : List Effect
  ret : Option α
  deriving DecidableEq

/-! ## Event emission (`operations.go`) -/

/-- The update of the event record performed by `streamErr` before it calls `h.StreamErr`. -/
def streamErr (env : Env) (summary : String) (e : EventsResponse) (err : GoError) :
    EventsResponse :=
  { e with
    Summary := summary
    Details := err.text
    ErrorCode := env.GetCode err
    ProbableCause := env.GetCause err
    SuggestedRemediation := env.GetRemedy err }

/-! ## Generic component translator and fan-out apply (`oam.go`) -/

/-- Function `getAPIVersionFromComponent`. -/
def getAPIVersionFromComponent (comp : Component) : String :=
  mapGet comp.Annotations "pattern.meshery.io.mesh.workload.k8sAPIVersion"

/-- Function `getKindFromComponent`. -/
def getKindFromComponent (comp : Component) : String :=
  mapGet comp.Annotations "pattern.meshery.io.mesh.workload.k8sKind"

/-- Shared state of the fan-out of `handleConsulCoreComponents`: the targets the `range` loop
has not reached yet, the slice `errs`, the counter of `wg`, the effects so far and the
returned pair once the call has returned. -/
structure CoreShared where
  toSpawn : List String
  errs : List GoError
  wg : Nat
  trace : List Effect
  ret : Option (String × Option GoError)

/-- Control points of the goroutine of `handleConsulCoreComponents`. -/
inductive CoreTask where
  | start (k8sconfig : String)
  | apply (kClient : KubeClient)

/-- The fan-out of `handleConsulCoreComponents` (lines 163-188). The spawning routine runs
`wg.Add(1); go func(k8sconfig)` per target, then `wg.Wait()` and the final `return`. The
goroutine constructs a client and applies the manifest; it returns on each of its three
paths without calling `wg.Done()`. -/
def coreProg (env : Env) (yamlByt : String) (comp : Component) (isDel : Bool) (msg : String) :
    Prog CoreShared CoreTask where
  mainEnabled sh := sh.ret.isNone && (!sh.toSpawn.isEmpty || sh.wg == 0)
  mainStep sh :=
    match sh.toSpawn with
    | k8sconfig :: rest =>
      ({ sh with toSpawn := rest, wg := sh.wg + 1,
                 trace := sh.trace ++ [Effect.goroutine k8sconfig] },
        some (CoreTask.start k8sconfig))
    | [] =>
      if sh.errs.length ≠ 0 then ({ sh with ret := some (msg, mergeErrors sh.errs) }, none)
      else ({ sh with ret := some (msg, none) }, none)
  taskStep t sh :=
    match t with
    | CoreTask.start k8sconfig =>
      match env.New k8sconfig with
      | Except.error err =>
        ({ sh with errs := sh.errs ++ [err], trace := sh.trace ++ [Effect.New k8sconfig] }, none)
      | Except.ok kClient =>
        ({ sh with trace := sh.trace ++ [Effect.New k8sconfig] }, some (CoreTask.apply kClient))
    | CoreTask.apply kClient =>
      let opts : ApplyOptions := ⟨comp.Namespace, true, isDel⟩
      match env.ApplyManifest kClient yamlByt opts with
      | some err =>
        ({ sh with errs := sh.errs ++ [err],
                   trace := sh.trace ++ [Effect.ApplyManifest kClient yamlByt opts] }, none)
      | none =>
        ({ sh with trace := sh.trace ++ [Effect.ApplyManifest kClient yamlByt opts] }, none)

/-- Initial configuration of the fan-out of `handleConsulCoreComponents`. -/
def coreInit (kubeconfigs : List String) : Conf CoreShared CoreTask :=
  ⟨⟨kubeconfigs, [], 0, [], none⟩, []⟩

/-- Function `handleConsulCoreComponents`, run under the schedule `sched`. -/
def handleConsulCoreComponents (env : Env) (sched : List Nat) (comp : Component) (isDel : Bool)
    (apiVersion kind : String) (kubeconfigs : List String) :
    CallResult (String × Option GoError) :=
  let apiVersion1 := if apiVersion = "" then getAPIVersionFromComponent comp else apiVersion
  if apiVersion = "" ∧ apiVersion1 = "" then
    -- fmt.Errorf("failed to get API Version for: %s", comp.Name)
    ⟨[], some ("", some (ErrConsulCoreComponentFail
      ⟨ErrKind.fmtError, "failed to get API Version for: " ++ comp.Name⟩))⟩
  else
    let kind1 := if kind = "" then getKindFromComponent comp else kind
    if kind = "" ∧ kind1 = "" then
      -- fmt.Errorf("failed to get kind for: %s", comp.Name)
      ⟨[], some ("", some (ErrConsulCoreComponentFail
        ⟨ErrKind.fmtError, "failed to get kind for: " ++ comp.Name⟩))⟩
    else
      let component : Artifact :=
        ⟨apiVersion1, kind1, comp.Name, comp.Annotations, comp.Labels, comp.Spec.Settings⟩
      match env.Marshal component with
      | Except.error err => ⟨[], some ("", some (ErrParseConsulCoreComponent err))⟩
      | Except.ok yamlByt =>
        -- fmt.Sprintf with the operands kind, comp.Name, comp.Namespace
        let msg :=
          if isDel then
            "deleted " ++ kind1 ++ " config \"" ++ comp.Name ++ "\" in namespace \""
              ++ comp.Namespace ++ "\""
          else
            "created " ++ kind1 ++ " \"" ++ comp.Name ++ "\" in namespace \""
              ++ comp.Namespace ++ "\""
        let final := (coreProg env yamlByt comp isDel msg).run sched (coreInit kubeconfigs)
        ⟨final.shared.trace, final.shared.ret⟩

/-- Function `handleComponentConsulMesh`, called at loop iteration `i`. -/
def handleComponentConsulMesh (env : Env) (i : Nat) (comp : Component) (isDelete : Bool)
    (kubeconfigs : List String) : Option (String × Option GoError) :=
  let version := comp.Spec.Version
  if version = "" then
    some ("", some ⟨ErrKind.fmtError, "empty version passed for service mesh installation"⟩)
  else
    match env.installConsul i isDelete version comp.Namespace kubeconfigs with
    | none => none
    | some (msg, some err) => some (comp.Name ++ ": " ++ msg, some err)
    | some (msg, none) => some (comp.Name ++ ": " ++ msg, none)

/-! ## Component registry and dispatcher (`oam.go`) -/

/-- The type `CompHandler` with the receiver fixed; the number is the loop iteration of the
call and `none` stands for a call that does not return. -/
abbrev CompHandler := Env → Nat → Component → Bool → List String →
  Option (String × Option GoError)

/-- The map `compFuncMap` of `HandleComponents`. -/
def compFuncMap : List (String × CompHandler) :=
  [("ConsulMesh", handleComponentConsulMesh)]

/-- The handler call of one loop iteration: the handler registered for the type tag, else
`handleConsulCoreComponents` with empty overrides (run under the schedule `scheds i`). -/
def callHandler (env : Env) (scheds : Nat → List Nat) (isDel : Bool) (kubeconfigs : List String)
    (i : Nat) (comp : Component) : Option (String × Option GoError) :=
  match compFuncMap.lookup comp.Spec.Type_ with
  | none => (handleConsulCoreComponents env (scheds i) comp isDel "" "" kubeconfigs).ret
  | some fnc => fnc env i comp isDel kubeconfigs

/-- The event record `ee` created at the start of loop iteration `i`. -/
def newEvent (env : Env) (i : Nat) : EventsResponse :=
  ⟨env.uuid i, "", "", env.serverType, env.serverName, "", "", ""⟩

/-- The `for` loop of `HandleComponents` from iteration `i` on, followed by the final
`return`. The accumulators are `errs`, `msgs` and the effects so far. -/
def componentsLoop (env : Env) (scheds : Nat → List Nat) (isDel : Bool)
    (kubeconfigs : List String) (stat1 stat2 : String) :
    Nat → List Component → List GoError → List String → List Effect →
    CallResult (String × Option GoError)
  | _, [], errs, msgs, trace =>
    match mergeErrors errs with
    | some err => ⟨trace, some (mergeMsgs msgs, some err)⟩
    | none => ⟨trace, some (mergeMsgs msgs, none)⟩
  | i, comp :: rest, errs, msgs, trace =>
    let ee := newEvent env i
    match compFuncMap.lookup comp.Spec.Type_ with
    | none =>
      match (handleConsulCoreComponents env (scheds i) comp isDel "" "" kubeconfigs).ret with
      | none => ⟨trace ++ [Effect.invokeHandler comp], none⟩
      | some (_, some err) =>
        let ee1 := streamErr env ("Error while " ++ stat1 ++ " " ++ comp.Spec.Type_) ee err
        componentsLoop env scheds isDel kubeconfigs stat1 stat2 (i + 1) rest (errs ++ [err]) msgs
          (trace ++ [Effect.invokeHandler comp, Effect.StreamErr ee1 err])
      | some (msg, none) =>
        let ee1 := { ee with
          Summary := comp.Spec.Type_ ++ " " ++ stat2 ++ " successfully"
          Details := "The " ++ comp.Spec.Type_ ++ " is now " ++ stat2 ++ "." }
        componentsLoop env scheds isDel kubeconfigs stat1 stat2 (i + 1) rest errs (msgs ++ [msg])
          (trace ++ [Effect.invokeHandler comp, Effect.StreamInfo ee1])
    | some fnc =>
      match fnc env i comp isDel kubeconfigs with
      | none => ⟨trace ++ [Effect.invokeHandler comp], none⟩
      | some (_, some err) =>
        let ee1 := streamErr env ("Error while " ++ stat1 ++ " " ++ comp.Spec.Type_) ee err
        componentsLoop env scheds isDel kubeconfigs stat1 stat2 (i + 1) rest (errs ++ [err]) msgs
          (trace ++ [Effect.invokeHandler comp, Effect.StreamErr ee1 err])
      | some (msg, none) =>
        let ee1 := { ee with
          Summary := comp.Name ++ " " ++ comp.Spec.Type_ ++ " " ++ stat2 ++ " successfully"
          Details := "The " ++ comp.Name ++ " " ++ comp.Spec.Type_ ++ " is now " ++ stat2 ++ "." }
        componentsLoop env scheds isDel kubeconfigs stat1 stat2 (i + 1) rest errs (msgs ++ [msg])
          (trace ++ [Effect.invokeHandler comp, Effect.StreamInfo ee1])

/-- Method `HandleComponents`. The fan-out inside the `i`-th call of
`handleConsulCoreComponents` runs under the schedule `scheds i`. The trace holds the handler
invocations and the progress events of `HandleComponents` itself; the effects inside a handler
call stay in the result of that call. When a handler call does not return, neither does
`HandleComponents`. -/
def HandleComponents (env : Env) (scheds : Nat → List Nat) (comps : List Component)
    (isDel : Bool) (kubeconfigs : List String) : CallResult (String × Option GoError) :=
  let stat1 := if isDel then "removing" else "deploying"
  let stat2 := if isDel then "removed" else "deployed"
  componentsLoop env scheds isDel kubeconfigs stat1 stat2 0 comps [] [] []

/-- Method `HandleApplicationConfiguration`. -/
def HandleApplicationConfiguration (config : Configuration) (_isDel : Bool)
    (_kubeconfigs : List String) : String × Option GoError :=
  let errs : List GoError := []
  let msgs : List String :=
    config.Components.foldl
      (fun msgs comp =>
        comp.Traits.foldl
          (fun msgs trait =>
            msgs ++ ["applied trait \"" ++ trait.Name ++ "\" on service \""
              ++ comp.ComponentName ++ "\""])
          msgs)
      []
  match mergeErrors errs with
  | some err => (mergeMsgs msgs, some err)
  | none => (mergeMsgs msgs, none)

/-! ## Operation executor and service endpoint resolver (`operations.go`) -/

/-- Function `unicode.IsSpace`. -/
def isSpace (c : Char) : Bool :=
  let n := c.toNat
  n = 0x09 || n = 0x0A || n = 0x0B || n = 0x0C || n = 0x0D || n = 0x20 || n = 0x85
    || n = 0xA0 || n = 0x1680 || (decide (0x2000 ≤ n) && decide (n ≤ 0x200A)) || n = 0x2028
    || n = 0x2029 || n = 0x202F || n = 0x205F || n = 0x3000

/-- Function `strings.TrimSpace`. -/
def TrimSpace (s : String) : String :=
  String.mk ((s.toList.dropWhile isSpace).reverse.dropWhile isSpace).reverse

/-- Rendering `fmt.Sprintf("%s:%v", p.Address, p.Port)` of an endpoint address, `"N/A"` for a
nil pointer. -/
def renderHostPort : Option HostPort → String
  | some p => p.Address ++ ":" ++ toString p.Port
  | none => "N/A"

/-- Shared state of the fan-out of `ApplyOperation`: the targets the `range` loop has not
reached yet, the slice `errs`, the counter of `wg`, the event record `e`, the effects so far,
and the returned error once the call has returned. -/
structure OpShared where
  toSpawn : List String
  errs : List GoError
  wg : Nat
  e : EventsResponse
  trace : List Effect
  ret : Option (Option GoError)

/-- Control points of the goroutine of `ApplyOperation`: before `mesherykube.New`, inside the
loop over the remaining services, and at the deferred `wg.Done()`. -/
inductive OpTask where
  | start (k8sconfig : String)
  | services (kClient : KubeClient) (rest : List String)
  | done

/-- The fan-out of `ApplyOperation` (lines 93-141). The spawning routine runs
`wg.Add(1); go func(k8sconfig)` per target, then `wg.Wait()`, `h.StreamInfo(e)` and
`return nil`. Each goroutine ends with the deferred `wg.Done()`. -/
def opProg (env : Env) (request : OperationRequest) (operation : Operation) :
    Prog OpShared OpTask where
  mainEnabled sh := sh.ret.isNone && (!sh.toSpawn.isEmpty || sh.wg == 0)
  mainStep sh :=
    match sh.toSpawn with
    | k8sconfig :: rest =>
      ({ sh with toSpawn := rest, wg := sh.wg + 1,
                 trace := sh.trace ++ [Effect.goroutine k8sconfig] },
        some (OpTask.start k8sconfig))
    | [] => ({ sh with trace := sh.trace ++ [Effect.StreamInfo sh.e], ret := some none }, none)
  taskStep t sh :=
    match t with
    | OpTask.start k8sconfig =>
      match env.New k8sconfig with
      | Except.error err =>
        ({ sh with errs := sh.errs ++ [err], trace := sh.trace ++ [Effect.New k8sconfig] },
          some OpTask.done)
      | Except.ok kClient =>
        if !request.IsDeleteOperation && decide (operation.Services.length > 0) then
          ({ sh with trace := sh.trace ++ [Effect.New k8sconfig] },
            some (OpTask.services kClient operation.Services))
        else ({ sh with trace := sh.trace ++ [Effect.New k8sconfig] }, some OpTask.done)
    | OpTask.services _ [] => (sh, some OpTask.done)
    | OpTask.services kClient (service :: rest) =>
      let svc := TrimSpace service
      if svc.length > 0 then
        match env.GetServiceEndpoint kClient svc request.Namespace with
        | Except.error err1 =>
          let summary := "Unable to retrieve service endpoint for the service " ++ svc ++ "."
          let e1 := streamErr env summary sh.e err1
          ({ sh with e := e1,
                     trace := sh.trace ++ [Effect.GetServiceEndpoint kClient svc request.Namespace,
                       Effect.StreamErr e1 err1] },
            some (OpTask.services kClient rest))
        | Except.ok endpoint =>
          let external := renderHostPort endpoint.External
          let internal := renderHostPort endpoint.Internal
          let msg := sh.e.Summary ++ " Service endpoints for service " ++ svc ++ ": internal="
            ++ internal ++ ", external=" ++ external
          ({ sh with e := { sh.e with Summary := msg, Details := msg },
                     trace := sh.trace ++ [Effect.GetServiceEndpoint kClient svc request.Namespace] },
            some (OpTask.services kClient rest))
      else (sh, some (OpTask.services kClient rest))
    | OpTask.done => ({ sh with wg := sh.wg - 1, trace := sh.trace ++ [Effect.wgDone] }, none)

/-- Configuration at line 93 of `ApplyOperation`. -/
def opInit (kubeconfigs : List String) (e : EventsResponse) (trace : List Effect) :
    Conf OpShared OpTask :=
  ⟨⟨kubeconfigs, [], 0, e, trace, none⟩, []⟩

/-- The operation names of the second `case` of the `switch` in `ApplyOperation`. -/
def manifestOperations (env : Env) : List String :=
  [env.CustomOperation, env.Consul182DemoOperation, env.HTTPBinOperation,
    env.ImageHubOperation, env.BookInfoOperation]

/-- Method `ApplyOperation`, with the fan-out run under the schedule `sched`. A catalog entry
is a non-nil descriptor. -/
def ApplyOperation (env : Env) (request : OperationRequest) (sched : List Nat) :
    CallResult (Option GoError) :=
  match env.CreateKubeconfigs request.K8sConfigs with
  | some err => ⟨[], some (some err)⟩
  | none =>
    let kubeconfigs := request.K8sConfigs
    match env.GetObject with
    | Except.error err => ⟨[], some (some err)⟩
    | Except.ok operations =>
      let e0 : EventsResponse :=
        ⟨request.OperationID, "Deploying", "None", env.serverType, env.serverName, "", "", ""⟩
      let e := if request.IsDeleteOperation then { e0 with Summary := "Removing" } else e0
      match operations.lookup request.OperationName with
      | none =>
        let e1 := streamErr env "Error unknown operation name" e env.ErrOpInvalid
        ⟨[Effect.StreamErr e1 env.ErrOpInvalid], some (some env.ErrOpInvalid)⟩
      | some operation =>
        let opDesc := operation.Description
        if request.OperationName = env.ConsulOperation then
          let version := mapGet operation.AdditionalProperties env.HelmChartVersionKey
          let call := Effect.applyHelmChart request.IsDeleteOperation version request.Namespace
            kubeconfigs
          match env.applyHelmChart request.IsDeleteOperation version request.Namespace
              kubeconfigs with
          | (status, some err) =>
            let e1 := streamErr env ("Error while " ++ status ++ " " ++ opDesc) e err
            ⟨[call, Effect.StreamErr e1 err], some (some err)⟩
          | (_, none) =>
            let final := (opProg env request operation).run sched (opInit kubeconfigs e [call])
            ⟨final.shared.trace, final.shared.ret⟩
        else if request.OperationName ∈ manifestOperations env then
          let call := Effect.applyManifests request operation kubeconfigs
          match env.applyManifests request operation kubeconfigs with
          | (status, some err) =>
            let e1 := streamErr env ("Error while " ++ status ++ " " ++ opDesc)
              { e with Details := err.text } err
            ⟨[call, Effect.StreamErr e1 err], some (some err)⟩
          | (status, none) =>
            let summary := opDesc ++ " " ++ status ++ " successfully."
            let e1 := { e with Summary := summary, Details := summary }
            let final := (opProg env request operation).run sched (opInit kubeconfigs e1 [call])
            ⟨final.shared.trace, final.shared.ret⟩
        else
          let e1 := streamErr env "Invalid Operation" e env.ErrOpInvalid
          ⟨[Effect.StreamErr e1 env.ErrOpInvalid], some (some env.ErrOpInvalid)⟩

/-! ## Measures, expected effects and sample inputs -/

/-- Sum of a measure over the live goroutines. -/
def total {τ : Type} (f : τ → Nat) (l : List τ) : Nat := (l.map f).sum

/-- Test for a call of `mesherykube.New`. -/
def Effect.isNew : Effect → Bool
  | .New _ => true
  | _ => false

/-- Test for a call of `wg.Done()`, the end of a per-target task. -/
def Effect.isDone : Effect → Bool
  | .wgDone => true
  | _ => false

/-- Test for a call of the chart installer or of the manifest-apply routine. -/
def Effect.isDispatch (x : Effect) : Bool := x.isHelm || x.isManifests

/-- The component a handler was invoked for. -/
def Effect.invoked : Effect → Option Component
  | .invokeHandler comp => some comp
  | _ => none

/-- The message line of `HandleApplicationConfiguration` for one trait of one component. -/
def traitLine (comp : ConfigurationComponent) (trait : Trait) : String :=
  "applied trait \"" ++ trait.Name ++ "\" on service \"" ++ comp.ComponentName ++ "\""

/-- A sample catalog: a chart-based operation, a manifest-based operation with two services,
and an entry whose name is none of the operation names of the `switch`. -/
def demoCatalog : List (String × Operation) :=
  [("consul", ⟨0, "Consul", ["consul-server"], [("helm_chart_version", "1.0")]⟩),
   ("httpbin", ⟨1, "HTTPbin", ["httpbin", "missing"], []⟩),
   ("legacy", ⟨1, "Legacy", [], []⟩)]

/-- A sample environment in which every collaborator succeeds, except that the kubeconfig
`"bad"` yields no client, the service `"missing"` has no endpoint and the settings of the
artifact named `"unencodable"` cannot be serialised. -/
def demoEnv : Env where
  serverType := "adapter"
  serverName := "consul"
  ConsulOperation := "consul"
  CustomOperation := "custom"
  Consul182DemoOperation := "consul_182_demo"
  HTTPBinOperation := "httpbin"
  ImageHubOperation := "imagehub"
  BookInfoOperation := "bookinfo"
  HelmChartVersionKey := "helm_chart_version"
  ErrOpInvalid := ⟨ErrKind.opInvalid, "Invalid operation"⟩
  GetCode := fun _ => "1000"
  GetCause := fun _ => "cause"
  GetRemedy := fun _ => "remedy"
  uuid := fun _ => "id"
  CreateKubeconfigs := fun _ => none
  GetObject := Except.ok demoCatalog
  applyHelmChart := fun isDel _ _ _ => (if isDel then "removing" else "installing", none)
  applyManifests := fun request _ _ =>
    (if request.IsDeleteOperation then "removed" else "deployed", none)
  installConsul := fun _ _ _ _ _ => some ("installed", none)
  New := fun k =>
    if k = "bad" then Except.error ⟨ErrKind.collaborator, "bad kubeconfig"⟩
    else Except.ok ⟨k, "host"⟩
  ApplyManifest := fun _ _ _ => none
  GetServiceEndpoint := fun _ svc _ =>
    if svc = "missing" then Except.error ⟨ErrKind.collaborator, "service not found"⟩
    else Except.ok ⟨some ⟨"10.0.0.1", 8500⟩, none⟩
  Marshal := fun a =>
    if a.name = "unencodable" then Except.error ⟨ErrKind.collaborator, "cannot encode"⟩
    else Except.ok (a.apiVersion ++ "/" ++ a.kind ++ "/" ++ a.name)

/-- The component of the scenario of the spec: a generic component carrying both
annotations. -/
def redis : Component :=
  { Name := "redis", Namespace := "default",
    Annotations := [("pattern.meshery.io.mesh.workload.k8sAPIVersion", "v1"),
      ("pattern.meshery.io.mesh.workload.k8sKind", "Pod")],
    Labels := [], Spec := ⟨"Generic", "", []⟩ }

/-- A generic component without annotations. -/
def bare : Component :=
  { Name := "bare", Namespace := "default", Annotations := [], Labels := [],
    Spec := ⟨"Generic", "", []⟩ }

/-- A component handled by the registered `ConsulMesh` handler. -/
def mesh : Component :=
  { Name := "mesh", Namespace := "consul", Annotations := [], Labels := [],
    Spec := ⟨"ConsulMesh", "1.8.2", []⟩ }

/-- A generic component whose annotations name another apiVersion and kind than the
overrides used with it. -/
def annotated : Component :=
  { Name := "web", Namespace := "prod",
    Annotations := [("pattern.meshery.io.mesh.workload.k8sAPIVersion", "apps/v1"),
      ("pattern.meshery.io.mesh.workload.k8sKind", "Deployment")],
    Labels := [], Spec := ⟨"Generic", "", []⟩ }

/-- A configuration with two components carrying two traits and one trait. -/
def demoConfiguration : Configuration :=
  ⟨[⟨"svc-a", [⟨"mtls", []⟩, ⟨"retry", []⟩]⟩, ⟨"svc-b", [⟨"timeout", []⟩]⟩]⟩

/-- The status message of `handleConsulCoreComponents` for the resolved kind. -/
def statusMessage (isDel : Bool) (kind : String) (comp : Component) : String :=
  if isDel then
    "deleted " ++ kind ++ " config \"" ++ comp.Name ++ "\" in namespace \""
      ++ comp.Namespace ++ "\""
  else
    "created " ++ kind ++ " \"" ++ comp.Name ++ "\" in namespace \""
      ++ comp.Namespace ++ "\""

/-- Invariant of the fan-out of `handleConsulCoreComponents` started with at least one
target: the call has not returned, and once the loop has reached every target the counter of
the wait group is positive. -/
def CoreInv (s : Conf CoreShared CoreTask) : Prop :=
  s.shared.ret = none ∧ (s.shared.toSpawn = [] → 0 < s.shared.wg)

/-- Number of steps a goroutine of `ApplyOperation` still takes at most. -/
def opTaskSize (operation : Operation) : OpTask → Nat
  | OpTask.start _ => operation.Services.length + 3
  | OpTask.services _ rest => rest.length + 2
  | OpTask.done => 1

/-- Indicator of a goroutine of `ApplyOperation` that has not yet constructed its client. -/
def OpTask.isStart : OpTask → Nat
  | OpTask.start _ => 1
  | _ => 0

/-- Number of steps the fan-out of `ApplyOperation` still takes at most. -/
def opMeasure (operation : Operation) (s : Conf OpShared OpTask) : Nat :=
  (if s.shared.ret.isSome then 0 else 1)
    + s.shared.toSpawn.length * (operation.Services.length + 4)
    + total (opTaskSize operation) s.running

/-- Invariant of the fan-out of `ApplyOperation` over `n` targets started with the effects
`init`: the counter of the wait group is the number of live goroutines; the call returns only
`nil`, and only when every goroutine has ended, the informational event being its last
effect; every target is reached, gets its client constructed and ends with `wg.Done()`; the
dispatch calls are those
of `init`; and every failed endpoint resolution is followed by its failure event. -/
structure OpInv (env : Env) (n : Nat) (init : List Effect) (s : Conf OpShared OpTask) :
    Prop where
  wg_eq : s.shared.wg = s.running.length
  ret_cases : s.shared.ret = none ∨ s.shared.ret = some none
  final : s.shared.ret = some none →
    s.running = [] ∧ s.shared.toSpawn = [] ∧
      ∃ pre e, s.shared.trace = pre ++ [Effect.StreamInfo e] ∧ pre.countP Effect.isInfo = 0
  no_info : s.shared.ret = none → s.shared.trace.countP Effect.isInfo = 0
  news : s.shared.trace.countP Effect.isNew + total OpTask.isStart s.running
    + s.shared.toSpawn.length = n
  spawned : s.shared.trace.countP Effect.isGoroutine + s.shared.toSpawn.length = n
  dones : s.shared.trace.countP Effect.isDone + s.running.length + s.shared.toSpawn.length = n
  dispatch : s.shared.trace.filter Effect.isDispatch = init.filter Effect.isDispatch
  warned : ∀ kClient svc ns err, Effect.GetServiceEndpoint kClient svc ns ∈ s.shared.trace →
    env.GetServiceEndpoint kClient svc ns = Except.error err →
    ∃ e, Effect.StreamErr e err ∈ s.shared.trace
  errors : ∀ e err, Effect.StreamErr e err ∈ s.shared.trace →
    Effect.StreamErr e err ∈ init ∨
      ∃ kClient svc ns, env.GetServiceEndpoint kClient svc ns = Except.error err

/-- A sample environment in which the target credentials cannot be set up. -/
def demoEnvNoCredentials : Env :=
  { demoEnv with
    CreateKubeconfigs := fun _ => some ⟨ErrKind.collaborator, "cannot write kubeconfig"⟩ }

/-- A sample environment in which the catalog of operations cannot be loaded. -/
def demoEnvNoCatalog : Env :=
  { demoEnv with
    GetObject := Except.error ⟨ErrKind.collaborator, "cannot load operations"⟩ }

/-- A component for the `ConsulMesh` handler whose version is given in the settings only. -/
def meshVersionInSettings : Component :=
  { Name := "mesh", Namespace := "consul", Annotations := [], Labels := [],
    Spec := ⟨"ConsulMesh", "", [("version", "1.8.2")]⟩ }

/-- A request for the operation `legacy`, a key of the sample catalog that is none of the six
operation names of the `switch`. -/
def legacyRequest : OperationRequest :=
  ⟨"legacy", "default", false, "op-1", ["k1"]⟩

/-- A request for the operation `httpbin` on two targets, the first of them unusable. -/
def httpbinRequest : OperationRequest :=
  ⟨"httpbin", "default", false, "op-2", ["bad", "k2"]⟩

/-- A request for an operation that the sample catalog does not hold. -/
def unknownRequest : OperationRequest :=
  ⟨"unknown", "default", false, "op-3", ["k1"]⟩

/-- The call of the chart installer made by `ApplyOperation` for a resolved descriptor. -/
def helmCall (env : Env) (request : OperationRequest) (operation : Operation) : Effect :=
  Effect.applyHelmChart request.IsDeleteOperation
    (mapGet operation.AdditionalProperties env.HelmChartVersionKey) request.Namespace
    request.K8sConfigs

/-- The outcome of that call of the chart installer. -/
def helmResult (env : Env) (request : OperationRequest) (operation : Operation) :
    String × Option GoError :=
  env.applyHelmChart request.IsDeleteOperation
    (mapGet operation.AdditionalProperties env.HelmChartVersionKey) request.Namespace
    request.K8sConfigs

/-- The call of the manifest-apply routine made by `ApplyOperation` for a resolved
descriptor. -/
def manifestsCall (request : OperationRequest) (operation : Operation) : Effect :=
  Effect.applyManifests request operation request.K8sConfigs

/-- The outcome of that call of the manifest-apply routine. -/
def manifestsResult (env : Env) (request : OperationRequest) (operation : Operation) :
    String × Option GoError :=
  env.applyManifests request operation request.K8sConfigs

/-- The progress event of `HandleComponents` for the component of loop iteration `i`, given
the outcome of its handler: a failure event carrying the failure, or an informational event
whose wording depends on whether a handler is registered for the type tag. -/
def componentEvent (env : Env) (stat1 stat2 : String) (i : Nat) (comp : Component)
    (out : String × Option GoError) : Effect :=
  match out.2 with
  | some err =>
    Effect.StreamErr
      (streamErr env ("Error while " ++ stat1 ++ " " ++ comp.Spec.Type_) (newEvent env i) err) err
  | none =>
    match compFuncMap.lookup comp.Spec.Type_ with
    | none =>
      Effect.StreamInfo { newEvent env i with
        Summary := comp.Spec.Type_ ++ " " ++ stat2 ++ " successfully"
        Details := "The " ++ comp.Spec.Type_ ++ " is now " ++ stat2 ++ "." }
    | some _ =>
      Effect.StreamInfo { newEvent env i with
        Summary := comp.Name ++ " " ++ comp.Spec.Type_ ++ " " ++ stat2 ++ " successfully"
        Details := "The " ++ comp.Name ++ " " ++ comp.Spec.Type_ ++ " is now " ++ stat2 ++ "." }

/-- The handler invocation and the progress event of every component, in component order. -/
def componentEffects (env : Env) (stat1 stat2 : String) :
    Nat → List Component → List (String × Option GoError) → List Effect
  | i, comp :: comps, out :: outs =>
    Effect.invokeHandler comp :: componentEvent env stat1 stat2 i comp out
      :: componentEffects env stat1 stat2 (i + 1) comps outs
  | _, _, _ => []

/-- The progress events of the components, in component order. -/
def componentEvents (env : Env) (stat1 stat2 : String) :
    Nat → List Component → List (String × Option GoError) → List Effect
  | i, comp :: comps, out :: outs =>
    componentEvent env stat1 stat2 i comp out :: componentEvents env stat1 stat2 (i + 1) comps outs
  | _, _, _ => []

/-- The label `stat1` of `HandleComponents`. -/
def statusDoing (isDel : Bool) : String := if isDel then "removing" else "deploying"

/-- The label `stat2` of `HandleComponents`. -/
def statusDone (isDel : Bool) : String := if isDel then "removed" else "deployed"

/-- The messages of the handler outcomes without failure, in order. -/
def okMsgs (outs : List (String × Option GoError)) : List String :=
  (outs.filter (fun o => o.2.isNone)).map Prod.fst

/-- The failures of the handler outcomes, in order. -/
def failures (outs : List (String × Option GoError)) : List GoError :=
  outs.filterMap Prod.snd

/-- The failure of `handleConsulCoreComponents` for the component `bare`. -/
def bareFailure : GoError :=
  ⟨ErrKind.consulCoreComponentFail, "failed to get API Version for: bare"⟩

/-- The handler outcomes of the components `bare`, `mesh`, `bare` in the sample
environment. -/
def demoOuts : List (String × Option GoError) :=
  [("", some bareFailure), ("mesh: installed", none), ("", some bareFailure)]

/-! ## Properties of the goroutine machine -/

theorem Prog.stepTask_of_get? {σ τ : Type} (P : Prog σ τ) (i : Nat) (t : τ) (s : Conf σ τ)
    (h : s.running.get? i = some t) : P.stepTask i s = P.applyTask i t s := by
  unfold Prog.stepTask
  rw [h]

/-- A scheduling decision either finds nothing able to move, or runs the spawning routine
(which is enabled), or runs a live goroutine. -/
theorem Prog.step_cases {σ τ : Type} (P : Prog σ τ) (c : Nat) (s : Conf σ τ) :
    (P.mainEnabled s.shared = false ∧ s.running = [] ∧ P.step c s = s) ∨
    (P.mainEnabled s.shared = true ∧ P.step c s = P.stepMain s) ∨
    (∃ i t, s.running.get? i = some t ∧ P.step c s = P.applyTask i t s) := by
  by_cases hm : P.mainEnabled s.shared = true
  · by_cases h0 : c % (s.running.length + 1) = 0
    · right; left
      refine ⟨hm, ?_⟩
      unfold Prog.step
      rw [if_pos hm, if_pos h0]
    · right; right
      have hlt : c % (s.running.length + 1) < s.running.length + 1 := Nat.mod_lt _ (by omega)
      have hi : c % (s.running.length + 1) - 1 < s.running.length := by omega
      have hg : s.running.get? (c % (s.running.length + 1) - 1)
          = some (s.running.get ⟨_, hi⟩) := List.get?_eq_get hi
      refine ⟨_, _, hg, ?_⟩
      unfold Prog.step
      rw [if_pos hm, if_neg h0]
      exact P.stepTask_of_get? _ _ s hg
  · have hm' : P.mainEnabled s.shared = false := by simpa using hm
    by_cases hl : s.running.length = 0
    · left
      refine ⟨hm', List.length_eq_zero.mp hl, ?_⟩
      unfold Prog.step
      rw [if_neg hm, if_pos hl]
    · right; right
      have hi : c % s.running.length < s.running.length := Nat.mod_lt _ (by omega)
      have hg : s.running.get? (c % s.running.length) = some (s.running.get ⟨_, hi⟩) :=
        List.get?_eq_get hi
      refine ⟨_, _, hg, ?_⟩
      unfold Prog.step
      rw [if_neg hm, if_neg hl]
      exact P.stepTask_of_get? _ _ s hg

/-- A property kept by the steps of the spawning routine and of the goroutines is kept by
every scheduling decision. -/
theorem Prog.step_preserves {σ τ : Type} (P : Prog σ τ) (Inv : Conf σ τ → Prop)
    (hmain : ∀ s, Inv s → P.mainEnabled s.shared = true → Inv (P.stepMain s))
    (htask : ∀ s i t, Inv s → s.running.get? i = some t → Inv (P.applyTask i t s))
    (c : Nat) (s : Conf σ τ) (h : Inv s) : Inv (P.step c s) := by
  rcases P.step_cases c s with ⟨_, _, he⟩ | ⟨hm, he⟩ | ⟨i, t, ht, he⟩
  · rw [he]; exact h
  · rw [he]; exact hmain s h hm
  · rw [he]; exact htask s i t h ht

/-- A property kept by every scheduling decision holds after every schedule. -/
theorem Prog.run_preserves {σ τ : Type} (P : Prog σ τ) (Inv : Conf σ τ → Prop)
    (hstep : ∀ c s, Inv s → Inv (P.step c s)) :
    ∀ (sched : List Nat) (s : Conf σ τ), Inv s → Inv (P.run sched s) := by
  intro sched
  induction sched with
  | nil => intro s h; exact h
  | cons c cs ih => intro s h; exact ih (P.step c s) (hstep c s h)

theorem total_append {τ : Type} (f : τ → Nat) (l₁ l₂ : List τ) :
    total f (l₁ ++ l₂) = total f l₁ + total f l₂ := by
  simp [total]

theorem total_set {τ : Type} (f : τ → Nat) :
    ∀ (l : List τ) (i : Nat) (t t' : τ), l.get? i = some t →
      total f (l.set i t') + f t = total f l + f t' := by
  intro l
  induction l with
  | nil => intro i t t' h; simp at h
  | cons a l ih =>
    intro i t t' h
    cases i with
    | zero =>
      simp at h
      subst h
      simp [total]
      omega
    | succ i =>
      simp at h
      have := ih i t t' (by simpa using h)
      simp [total] at this ⊢
      omega

theorem total_eraseIdx {τ : Type} (f : τ → Nat) :
    ∀ (l : List τ) (i : Nat) (t : τ), l.get? i = some t →
      total f (l.eraseIdx i) + f t = total f l := by
  intro l
  induction l with
  | nil => intro i t h; simp at h
  | cons a l ih =>
    intro i t h
    cases i with
    | zero =>
      simp at h
      subst h
      simp [total]
      omega
    | succ i =>
      simp at h
      have := ih i t (by simpa using h)
      simp [total] at this ⊢
      omega

theorem length_eraseIdx_of_get? {τ : Type} (l : List τ) (i : Nat) (t : τ)
    (h : l.get? i = some t) : (l.eraseIdx i).length + 1 = l.length := by
  have hi : i < l.length := by
    rcases Nat.lt_or_ge i l.length with h' | h'
    · exact h'
    · rw [List.get?_eq_none.mpr h'] at h; cases h
  rw [List.length_eraseIdx]
  simp [hi]
  omega

/-! ## The formatter on texts without a verb -/

theorem Fmt.doPrintf_of_no_percent :
    ∀ (l : List Char) (n : Nat), l.length ≤ n → '%' ∉ l → Fmt.doPrintf n l = l := by
  intro l
  induction l with
  | nil => intro n _ _; cases n <;> rfl
  | cons c cs ih =>
    intro n hn hp
    cases n with
    | zero => simp at hn
    | succ n =>
      have hc : c ≠ '%' := fun h => hp (by simp [h])
      have hcs : '%' ∉ cs := fun h => hp (by simp [h])
      simp only [Fmt.doPrintf, if_neg hc]
      rw [ih n (by simpa using hn) hcs]

/-- A text without `%` is formatted to itself. -/
theorem Fmt.Sprintf0_of_no_percent (s : String) (h : '%' ∉ s.toList) : Fmt.Sprintf0 s = s := by
  cases s with
  | mk l =>
    show String.mk (Fmt.doPrintf l.length l) = String.mk l
    rw [Fmt.doPrintf_of_no_percent l l.length (Nat.le_refl _) h]

/-! ## The fuel of the formatter -/

theorem Fmt.parsenumLoop_length : ∀ (s : List Char) (num : Nat) (isnum : Bool),
    (Fmt.parsenumLoop num isnum s).2.2.length ≤ s.length := by
  intro s
  induction s with
  | nil => intro num isnum; simp [Fmt.parsenumLoop]
  | cons c cs ih =>
    intro num isnum
    unfold Fmt.parsenumLoop
    by_cases hd : Fmt.isDigit c = true
    · rw [if_pos hd]
      by_cases ht : Fmt.tooLarge num = true
      · rw [if_pos ht]; simp
      · rw [if_neg ht]; exact Nat.le_succ_of_le (ih _ _)
    · rw [if_neg hd]

theorem Fmt.parsenum_length (s : List Char) : (Fmt.parsenum s).2.2.length ≤ s.length :=
  Fmt.parsenumLoop_length s 0 false

theorem Fmt.findBracket_length : ∀ (s inner : List Char) (r : Int × List Char × Bool),
    Fmt.findBracket inner s = some r → r.2.1.length < s.length := by
  intro s
  induction s with
  | nil => intro inner r h; simp [Fmt.findBracket] at h
  | cons c cs ih =>
    intro inner r h
    unfold Fmt.findBracket at h
    by_cases hc : c = ']'
    · rw [if_pos hc] at h
      simp only at h
      split at h <;> (cases h; simp)
    · rw [if_neg hc] at h
      exact Nat.lt_succ_of_lt (ih _ _ h)

theorem Fmt.parseArgNumber_length (format : List Char) :
    (Fmt.parseArgNumber format).2.1.length ≤ format.length := by
  unfold Fmt.parseArgNumber
  by_cases hb : Fmt.byteLen format < 3
  · rw [if_pos hb]; simp
  · rw [if_neg hb]
    cases hf : Fmt.findBracket [] (format.drop 1) with
    | none => simp
    | some r =>
      have := Fmt.findBracket_length _ _ _ hf
      simp only [List.length_drop] at this
      show r.2.1.length ≤ format.length
      omega

theorem Fmt.argNumber_length (numArgs : Nat) (good : Bool) (format : List Char) :
    (Fmt.argNumber numArgs good format).1.length ≤ format.length := by
  unfold Fmt.argNumber
  split
  · rename_i tl
    have := Fmt.parseArgNumber_length ('[' :: tl)
    simp only
    split <;> exact this
  · exact Nat.le_refl _

theorem Fmt.dropWhile_length (q : Char → Bool) (l : List Char) :
    (l.dropWhile q).length ≤ l.length := by
  induction l with
  | nil => simp
  | cons a l ih =>
    simp only [List.dropWhile_cons]
    split
    · exact Nat.le_succ_of_le ih
    · exact Nat.le_refl _

theorem Fmt.width_length (a1 : List Char × Bool × Bool) :
    (Fmt.width a1).2.1.length ≤ a1.1.length := by
  unfold Fmt.width
  split
  · rename_i rest h
    rw [h]; simp
  · exact Fmt.parsenum_length _

theorem Fmt.precision_length (w : List Char × List Char × Bool × Bool) :
    (Fmt.precision w).2.1.length ≤ w.2.1.length := by
  unfold Fmt.precision
  split
  · rename_i rest h
    have h1 := Fmt.argNumber_length 0 (if w.2.2.1 then false else w.2.2.2) rest
    rw [h]
    split
    · rename_i rest2 h2
      rw [h2] at h1
      simp only [List.length_cons] at h1 ⊢
      omega
    · have h3 := Fmt.parsenum_length
        (Fmt.argNumber 0 (if w.2.2.1 then false else w.2.2.2) rest).1
      simp only [List.length_cons] at h1 ⊢
      omega
  · exact Nat.le_refl _

theorem Fmt.lastIndex_length (p : List Char × List Char × Bool × Bool) :
    (Fmt.lastIndex p).1.length ≤ p.2.1.length := by
  unfold Fmt.lastIndex
  split
  · exact Fmt.argNumber_length _ _ _
  · exact Nat.le_refl _

/-- The format remaining after a verb is at most as long as the text after the `%`. -/
theorem Fmt.verb_length (cs rest : List Char) (h : (Fmt.verb cs).2 = some rest) :
    rest.length < cs.length := by
  have h1 := Fmt.dropWhile_length Fmt.isFlag cs
  have h2 := Fmt.argNumber_length 0 true (cs.dropWhile Fmt.isFlag)
  have h3 := Fmt.width_length (Fmt.argNumber 0 true (cs.dropWhile Fmt.isFlag))
  have h4 := Fmt.precision_length (Fmt.width (Fmt.argNumber 0 true (cs.dropWhile Fmt.isFlag)))
  have h5 := Fmt.lastIndex_length
    (Fmt.precision (Fmt.width (Fmt.argNumber 0 true (cs.dropWhile Fmt.isFlag))))
  unfold Fmt.verb at h
  simp only at h
  split at h
  · cases h
  · rename_i v rest' hv
    simp only [Option.some.injEq] at h
    subst h
    rw [hv] at h5
    simp only [List.length_cons] at h5
    omega

/-- The formatter does not depend on its fuel once the fuel covers the length of the
format: `Sprintf0` never runs out of fuel. -/
theorem Fmt.doPrintf_fuel : ∀ (n : Nat) (l : List Char) (m : Nat), l.length ≤ n → n ≤ m →
    Fmt.doPrintf m l = Fmt.doPrintf n l := by
  intro n
  induction n with
  | zero =>
    intro l m hl _
    have : l = [] := List.length_eq_zero.mp (Nat.le_zero.mp hl)
    subst this
    cases m <;> rfl
  | succ n ih =>
    intro l m hl hm
    cases m with
    | zero => omega
    | succ m =>
      cases l with
      | nil => rfl
      | cons c cs =>
        simp only [Fmt.doPrintf]
        by_cases hc : c = '%'
        · simp only [if_pos hc]
          rcases hv : Fmt.verb cs with ⟨out, _ | rest⟩
          · rfl
          · have hlen := Fmt.verb_length cs rest (by rw [hv])
            simp only [List.length_cons] at hl
            simp only
            rw [ih rest m (by omega) (by omega)]
        · simp only [if_neg hc]
          simp only [List.length_cons] at hl
          rw [ih cs m (by omega) (by omega)]

/-! ## Error/message aggregation -/

theorem mergeErrors_nil : mergeErrors [] = none := rfl

theorem mergeErrors_eq_none_iff (errs : List GoError) : mergeErrors errs = none ↔ errs = [] := by
  cases errs with
  | nil => simp [mergeErrors]
  | cons e es => simp [mergeErrors]

/-- Texts without `%` are merged into their newline-joined text. -/
theorem mergeErrors_of_no_percent (e : GoError) (es : List GoError)
    (h : '%' ∉ (String.intercalate "\n" ((e :: es).map GoError.text)).toList) :
    mergeErrors (e :: es)
      = some ⟨ErrKind.fmtError, String.intercalate "\n" ((e :: es).map GoError.text)⟩ := by
  simp only [mergeErrors, List.length_cons, Nat.add_one_ne_zero, if_false, Errorf0]
  rw [Fmt.Sprintf0_of_no_percent _ h]

/-- C1 (fails on the code): `mergeErrors` passes the joined text to `fmt.Errorf` as the
format string, so a failure text containing `%` is not reproduced. For the single failure
with text `100%` the merged failure has the text `100%!(NOVERB)`, not `100%`; for the two
failures `50%` and `done` the line break is read as the verb and the merged text is
`50%!`, a line break, `(MISSING)done`, not their newline-joined text. -/
theorem mergeErrors_percent_text :
    mergeErrors [⟨ErrKind.collaborator, "100%"⟩] = some ⟨ErrKind.fmtError, "100%!(NOVERB)"⟩
    ∧ (mergeErrors [⟨ErrKind.collaborator, "100%"⟩]).map GoError.text ≠ some "100%"
    ∧ (mergeErrors [⟨ErrKind.collaborator, "50%"⟩, ⟨ErrKind.collaborator, "done"⟩]).map
        GoError.text = some "50%!\n(MISSING)done"
    ∧ (mergeErrors [⟨ErrKind.collaborator, "50%"⟩, ⟨ErrKind.collaborator, "done"⟩]).map
        GoError.text ≠ some ("50%" ++ "\n" ++ "done") := by
  decide

/-! ## Configuration application -/

theorem foldl_snoc_map {α β : Type} (f : α → β) :
    ∀ (l : List α) (init : List β), l.foldl (fun acc x => acc ++ [f x]) init = init ++ l.map f := by
  intro l
  induction l with
  | nil => intro init; simp
  | cons a l ih => intro init; simp [ih]

theorem traits_foldl (comps : List ConfigurationComponent) :
    ∀ init : List String,
      comps.foldl
        (fun msgs comp =>
          comp.Traits.foldl
            (fun msgs trait =>
              msgs ++ ["applied trait \"" ++ trait.Name ++ "\" on service \""
                ++ comp.ComponentName ++ "\""])
            msgs)
        init
      = init ++ comps.flatMap (fun comp => comp.Traits.map (traitLine comp)) := by
  induction comps with
  | nil => intro init; simp
  | cons c cs ih =>
    intro init
    simp only [List.foldl_cons, List.flatMap_cons]
    rw [ih]
    have := foldl_snoc_map (traitLine c) c.Traits init
    simp only [traitLine] at this ⊢
    rw [this, List.append_assoc]

/-- C9: for every configuration, delete flag and target list, `HandleApplicationConfiguration`
returns no failure, and its message is the newline join of one line
`applied trait "<trait>" on service "<component>"` per trait per component, components in order
and within a component its traits in order; the number of joined lines is the total number of
traits, and the message is empty when there is no trait. -/
theorem HandleApplicationConfiguration_result (config : Configuration) (isDel : Bool)
    (kubeconfigs : List String) :
    HandleApplicationConfiguration config isDel kubeconfigs
      = (String.intercalate "\n"
          (config.Components.flatMap (fun comp => comp.Traits.map (traitLine comp))), none)
    ∧ (config.Components.flatMap (fun comp => comp.Traits.map (traitLine comp))).length
      = (config.Components.map (fun comp => comp.Traits.length)).sum
    ∧ ((config.Components.map (fun comp => comp.Traits.length)).sum = 0 →
        (HandleApplicationConfiguration config isDel kubeconfigs).1 = "") := by
  have hres : HandleApplicationConfiguration config isDel kubeconfigs
      = (String.intercalate "\n"
          (config.Components.flatMap (fun comp => comp.Traits.map (traitLine comp))), none) := by
    unfold HandleApplicationConfiguration
    simp only [mergeErrors_nil, mergeMsgs]
    rw [traits_foldl]
    simp
  have hlen : ∀ cs : List ConfigurationComponent,
      (cs.flatMap (fun comp => comp.Traits.map (traitLine comp))).length
        = (cs.map (fun comp => comp.Traits.length)).sum := by
    intro cs
    induction cs with
    | nil => rfl
    | cons c cs ih => simp [List.flatMap_cons, ih]
  refine ⟨hres, hlen _, ?_⟩
  intro h0
  rw [hres]
  have : config.Components.flatMap (fun comp => comp.Traits.map (traitLine comp)) = [] := by
    apply List.length_eq_zero.mp
    rw [hlen, h0]
  simp [this, String.intercalate]

/-- Witness for C9: the sample configuration yields three lines in component order and then
trait order, and the empty configuration yields the empty message. -/
theorem HandleApplicationConfiguration_result_witness :
    HandleApplicationConfiguration demoConfiguration false ["k1", "k2"]
      = ("applied trait \"mtls\" on service \"svc-a\"\napplied trait \"retry\" on service \"svc-a\"\napplied trait \"timeout\" on service \"svc-b\"",
          none)
    ∧ (HandleApplicationConfiguration ⟨[]⟩ true []).1 = "" :=
  ⟨(HandleApplicationConfiguration_result demoConfiguration false ["k1", "k2"]).1.trans
      (by decide),
    (HandleApplicationConfiguration_result ⟨[]⟩ true []).2.2 rfl⟩

/-! ## Resolution of apiVersion and kind -/

theorem mapGet_eq_empty (m : List (String × String)) (key : String)
    (h : m.lookup key = none ∨ m.lookup key = some "") : mapGet m key = "" := by
  rcases h with h | h <;> simp [mapGet, h]

theorem name_infix (pre name : String) : name.toList <:+: (pre ++ name).toList :=
  ⟨pre.toList, [], by simp⟩

/-- When apiVersion and kind resolve and the artifact serialises, `handleConsulCoreComponents`
is the fan-out of the manifest over the targets. -/
theorem handleConsulCoreComponents_fanout (env : Env) (sched : List Nat) (comp : Component)
    (isDel : Bool) (apiVersion kind : String) (kubeconfigs : List String) (yamlByt : String)
    (ha : (if apiVersion = "" then getAPIVersionFromComponent comp else apiVersion) ≠ "")
    (hk : (if kind = "" then getKindFromComponent comp else kind) ≠ "")
    (hm : env.Marshal ⟨if apiVersion = "" then getAPIVersionFromComponent comp else apiVersion,
        if kind = "" then getKindFromComponent comp else kind, comp.Name, comp.Annotations,
        comp.Labels, comp.Spec.Settings⟩ = Except.ok yamlByt) :
    handleConsulCoreComponents env sched comp isDel apiVersion kind kubeconfigs
      = ⟨((coreProg env yamlByt comp isDel
            (statusMessage isDel (if kind = "" then getKindFromComponent comp else kind) comp)).run
              sched (coreInit kubeconfigs)).shared.trace,
         ((coreProg env yamlByt comp isDel
            (statusMessage isDel (if kind = "" then getKindFromComponent comp else kind) comp)).run
              sched (coreInit kubeconfigs)).shared.ret⟩ := by
  unfold handleConsulCoreComponents
  simp only
  rw [if_neg (fun h => ha h.2), if_neg (fun h => hk h.2), hm]
  rfl

/-- C10: when no apiVersion override is given and the annotation
`pattern.meshery.io.mesh.workload.k8sAPIVersion` is missing or empty, or when no kind override
is given and the annotation `pattern.meshery.io.mesh.workload.k8sKind` is missing or empty,
`handleConsulCoreComponents` returns the empty message and a resolution failure whose text
contains the name of the component, with no effect at all (no target task is started). A
non-empty override takes precedence over its annotation, each override on its own: with a
non-empty apiVersion override the artifact carries that apiVersion whatever the annotation
says, the kind being the kind override or else the kind annotation; with a non-empty kind
override the artifact and the status message carry that kind whatever the annotation says,
the apiVersion being the apiVersion override or else the apiVersion annotation. In both cases
the call is the fan-out of the manifest serialised from that artifact. -/
theorem handleConsulCoreComponents_resolution (env : Env) (sched : List Nat) (comp : Component)
    (isDel : Bool) (apiVersion kind : String) (kubeconfigs : List String) :
    (((apiVersion = "" ∧
          (comp.Annotations.lookup "pattern.meshery.io.mesh.workload.k8sAPIVersion" = none ∨
            comp.Annotations.lookup "pattern.meshery.io.mesh.workload.k8sAPIVersion" = some ""))
        ∨ (kind = "" ∧
          (comp.Annotations.lookup "pattern.meshery.io.mesh.workload.k8sKind" = none ∨
            comp.Annotations.lookup "pattern.meshery.io.mesh.workload.k8sKind" = some ""))) →
      ∃ err : GoError,
        handleConsulCoreComponents env sched comp isDel apiVersion kind kubeconfigs
          = ⟨[], some ("", some err)⟩
        ∧ err.kind = ErrKind.consulCoreComponentFail
        ∧ comp.Name.toList <:+: err.text.toList)
    ∧ (∀ yamlByt : String, apiVersion ≠ "" →
        (if kind = "" then getKindFromComponent comp else kind) ≠ "" →
        env.Marshal ⟨apiVersion, if kind = "" then getKindFromComponent comp else kind,
          comp.Name, comp.Annotations, comp.Labels, comp.Spec.Settings⟩ = Except.ok yamlByt →
        handleConsulCoreComponents env sched comp isDel apiVersion kind kubeconfigs
          = ⟨((coreProg env yamlByt comp isDel
                (statusMessage isDel (if kind = "" then getKindFromComponent comp else kind)
                  comp)).run sched (coreInit kubeconfigs)).shared.trace,
             ((coreProg env yamlByt comp isDel
                (statusMessage isDel (if kind = "" then getKindFromComponent comp else kind)
                  comp)).run sched (coreInit kubeconfigs)).shared.ret⟩)
    ∧ (∀ yamlByt : String, kind ≠ "" →
        (if apiVersion = "" then getAPIVersionFromComponent comp else apiVersion) ≠ "" →
        env.Marshal ⟨if apiVersion = "" then getAPIVersionFromComponent comp else apiVersion,
          kind, comp.Name, comp.Annotations, comp.Labels, comp.Spec.Settings⟩
            = Except.ok yamlByt →
        handleConsulCoreComponents env sched comp isDel apiVersion kind kubeconfigs
          = ⟨((coreProg env yamlByt comp isDel (statusMessage isDel kind comp)).run sched
                (coreInit kubeconfigs)).shared.trace,
             ((coreProg env yamlByt comp isDel (statusMessage isDel kind comp)).run sched
                (coreInit kubeconfigs)).shared.ret⟩)
    ∧ (∀ yamlByt : String, apiVersion ≠ "" → kind ≠ "" →
        env.Marshal ⟨apiVersion, kind, comp.Name, comp.Annotations, comp.Labels,
          comp.Spec.Settings⟩ = Except.ok yamlByt →
        handleConsulCoreComponents env sched comp isDel apiVersion kind kubeconfigs
          = ⟨((coreProg env yamlByt comp isDel (statusMessage isDel kind comp)).run sched
                (coreInit kubeconfigs)).shared.trace,
             ((coreProg env yamlByt comp isDel (statusMessage isDel kind comp)).run sched
                (coreInit kubeconfigs)).shared.ret⟩) := by
  refine ⟨?_, ?_, ?_, ?_⟩
  · intro h
    by_cases ha : apiVersion = "" ∧ getAPIVersionFromComponent comp = ""
    · refine ⟨ErrConsulCoreComponentFail
        ⟨ErrKind.fmtError, "failed to get API Version for: " ++ comp.Name⟩, ?_, rfl, ?_⟩
      · unfold handleConsulCoreComponents
        simp [ha.1, ha.2]
      · exact name_infix _ _
    · have hk : kind = "" ∧ getKindFromComponent comp = "" := by
        rcases h with ⟨h1, h2⟩ | ⟨h1, h2⟩
        · exact absurd ⟨h1, mapGet_eq_empty _ _ h2⟩ ha
        · exact ⟨h1, mapGet_eq_empty _ _ h2⟩
      refine ⟨ErrConsulCoreComponentFail
        ⟨ErrKind.fmtError, "failed to get kind for: " ++ comp.Name⟩, ?_, rfl, ?_⟩
      · unfold handleConsulCoreComponents
        by_cases ha1 : apiVersion = ""
        · have ha2 : ¬ getAPIVersionFromComponent comp = "" := fun h' => ha ⟨ha1, h'⟩
          simp [ha1, ha2, hk.1, hk.2]
        · simp [ha1, hk.1, hk.2]
      · exact name_infix _ _
  · intro yamlByt ha hk hm
    have hfan := handleConsulCoreComponents_fanout env sched comp isDel apiVersion kind
      kubeconfigs yamlByt (by rw [if_neg ha]; exact ha) hk (by rw [if_neg ha]; exact hm)
    exact hfan
  · intro yamlByt hk ha hm
    have hfan := handleConsulCoreComponents_fanout env sched comp isDel apiVersion kind
      kubeconfigs yamlByt ha (by rw [if_neg hk]; exact hk) (by rw [if_neg hk]; exact hm)
    rw [if_neg hk] at hfan
    exact hfan
  · intro yamlByt ha hk hm
    have hfan := handleConsulCoreComponents_fanout env sched comp isDel apiVersion kind
      kubeconfigs yamlByt (by rw [if_neg ha]; exact ha) (by rw [if_neg hk]; exact hk)
      (by rw [if_neg ha, if_neg hk]; exact hm)
    rw [if_neg hk] at hfan
    exact hfan

/-- Witness for C10: a component without annotations fails with a failure naming it; the
apiVersion override `v1` alone wins over the annotation `apps/v1` while the kind `Deployment`
comes from the annotation; the kind override `Pod` alone wins over the annotation
`Deployment` while the apiVersion `apps/v1` comes from the annotation; and both overrides
together win over both annotations. -/
theorem handleConsulCoreComponents_resolution_witness :
    (∃ err : GoError,
      handleConsulCoreComponents demoEnv [] bare false "" "" ["k1"] = ⟨[], some ("", some err)⟩
      ∧ err.kind = ErrKind.consulCoreComponentFail
      ∧ bare.Name.toList <:+: err.text.toList)
    ∧ handleConsulCoreComponents demoEnv [0, 0, 0] annotated false "v1" "" ["k1"]
        = ⟨[Effect.goroutine "k1", Effect.New "k1",
            Effect.ApplyManifest ⟨"k1", "host"⟩ "v1/Deployment/web" ⟨"prod", true, false⟩],
           none⟩
    ∧ handleConsulCoreComponents demoEnv [0] annotated false "v1" "" []
        = ⟨[], some ("created Deployment \"web\" in namespace \"prod\"", none)⟩
    ∧ handleConsulCoreComponents demoEnv [0, 0, 0] annotated false "" "Pod" ["k1"]
        = ⟨[Effect.goroutine "k1", Effect.New "k1",
            Effect.ApplyManifest ⟨"k1", "host"⟩ "apps/v1/Pod/web" ⟨"prod", true, false⟩],
           none⟩
    ∧ handleConsulCoreComponents demoEnv [0] annotated false "" "Pod" []
        = ⟨[], some ("created Pod \"web\" in namespace \"prod\"", none)⟩
    ∧ handleConsulCoreComponents demoEnv [0] annotated false "v1" "Pod" []
        = ⟨[], some ("created Pod \"web\" in namespace \"prod\"", none)⟩ :=
  ⟨(handleConsulCoreComponents_resolution demoEnv [] bare false "" "" ["k1"]).1
      (Or.inl ⟨rfl, Or.inl (by decide)⟩),
    ((handleConsulCoreComponents_resolution demoEnv [0, 0, 0] annotated false "v1" ""
      ["k1"]).2.1 "v1/Deployment/web" (by decide) (by decide) rfl).trans (by decide),
    ((handleConsulCoreComponents_resolution demoEnv [0] annotated false "v1" "" []).2.1
      "v1/Deployment/web" (by decide) (by decide) rfl).trans (by decide),
    ((handleConsulCoreComponents_resolution demoEnv [0, 0, 0] annotated false "" "Pod"
      ["k1"]).2.2.1 "apps/v1/Pod/web" (by decide) (by decide) rfl).trans (by decide),
    ((handleConsulCoreComponents_resolution demoEnv [0] annotated false "" "Pod" []).2.2.1
      "apps/v1/Pod/web" (by decide) (by decide) rfl).trans (by decide),
    ((handleConsulCoreComponents_resolution demoEnv [0] annotated false "v1" "Pod" []).2.2.2
      "v1/Pod/web" (by decide) (by decide) rfl).trans (by decide)⟩

/-! ## The fan-out of `handleConsulCoreComponents` -/

theorem Prog.applyTask_shared {σ τ : Type} (P : Prog σ τ) (i : Nat) (t : τ) (s : Conf σ τ) :
    (P.applyTask i t s).shared = (P.taskStep t s.shared).1 := by
  unfold Prog.applyTask
  rcases h : P.taskStep t s.shared with ⟨sh, _ | t'⟩ <;> rfl

theorem Prog.applyTask_running_some {σ τ : Type} (P : Prog σ τ) (i : Nat) (t t' : τ)
    (s : Conf σ τ) (h : (P.taskStep t s.shared).2 = some t') :
    (P.applyTask i t s).running = s.running.set i t' := by
  unfold Prog.applyTask
  rcases h' : P.taskStep t s.shared with ⟨sh, _ | t''⟩
  · rw [h'] at h; cases h
  · rw [h'] at h; cases h; rfl

theorem Prog.applyTask_running_none {σ τ : Type} (P : Prog σ τ) (i : Nat) (t : τ)
    (s : Conf σ τ) (h : (P.taskStep t s.shared).2 = none) :
    (P.applyTask i t s).running = s.running.eraseIdx i := by
  unfold Prog.applyTask
  rcases h' : P.taskStep t s.shared with ⟨sh, _ | t''⟩
  · rfl
  · rw [h'] at h; cases h

/-- A goroutine of `handleConsulCoreComponents` changes neither the counter of the wait
group, nor the targets still to be reached, nor the returned value. -/
theorem coreProg_taskStep_frame (env : Env) (yamlByt : String) (comp : Component) (isDel : Bool)
    (msg : String) (t : CoreTask) (sh : CoreShared) :
    (((coreProg env yamlByt comp isDel msg).taskStep t sh).1.wg = sh.wg)
    ∧ (((coreProg env yamlByt comp isDel msg).taskStep t sh).1.toSpawn = sh.toSpawn)
    ∧ (((coreProg env yamlByt comp isDel msg).taskStep t sh).1.ret = sh.ret) := by
  cases t with
  | start k =>
    simp only [coreProg]
    cases env.New k <;> simp
  | apply kClient =>
    simp only [coreProg]
    cases env.ApplyManifest kClient yamlByt ⟨comp.Namespace, true, isDel⟩ <;> simp

/-- With at least one target the fan-out of `handleConsulCoreComponents` never returns: the
counter of the wait group is raised once per target and never lowered, so `wg.Wait()` stays
blocked under every schedule. -/
theorem coreProg_never_returns (env : Env) (yamlByt : String) (comp : Component) (isDel : Bool)
    (msg : String) (k : String) (ks : List String) (sched : List Nat) :
    ((coreProg env yamlByt comp isDel msg).run sched (coreInit (k :: ks))).shared.ret = none := by
  have hstep : ∀ (c : Nat) (s : Conf CoreShared CoreTask), CoreInv s →
      CoreInv ((coreProg env yamlByt comp isDel msg).step c s) := by
    intro c s h
    refine (coreProg env yamlByt comp isDel msg).step_preserves CoreInv ?_ ?_ c s h
    · intro s hs hm
      obtain ⟨hr, hw⟩ := hs
      unfold Prog.stepMain
      cases hts : s.shared.toSpawn with
      | nil =>
        have hw' := hw hts
        simp [coreProg, hr, hts] at hm
        omega
      | cons k' rest =>
        simp [coreProg, hts, hr, CoreInv]
    · intro s i t hs _
      have hf := coreProg_taskStep_frame env yamlByt comp isDel msg t s.shared
      unfold CoreInv
      rw [Prog.applyTask_shared, hf.1, hf.2.1, hf.2.2]
      exact hs
  have key := (coreProg env yamlByt comp isDel msg).run_preserves CoreInv hstep sched
    (coreInit (k :: ks)) ⟨rfl, by simp [coreInit]⟩
  exact key.1

/-- With no target the fan-out of `handleConsulCoreComponents` returns the status message
and no failure at its first step. -/
theorem coreProg_no_target (env : Env) (yamlByt : String) (comp : Component) (isDel : Bool)
    (msg : String) (c : Nat) (sched : List Nat) :
    ((coreProg env yamlByt comp isDel msg).run (c :: sched) (coreInit [])).shared.ret
      = some (msg, none) := by
  have h1 : (coreProg env yamlByt comp isDel msg).step c (coreInit [])
      = ⟨⟨[], [], 0, [], some (msg, none)⟩, []⟩ := by
    simp [Prog.step, Prog.stepMain, coreProg, coreInit, Nat.mod_one]
  have key := (coreProg env yamlByt comp isDel msg).run_preserves
    (fun s => s.shared.ret = some (msg, none) ∧ s.running = [])
    (by
      intro c' s ⟨hr, hrun⟩
      rcases (coreProg env yamlByt comp isDel msg).step_cases c' s with
        ⟨_, _, he⟩ | ⟨hm, _⟩ | ⟨i, t, ht, _⟩
      · rw [he]; exact ⟨hr, hrun⟩
      · simp [coreProg, hr] at hm
      · simp [hrun] at ht)
    sched ⟨⟨[], [], 0, [], some (msg, none)⟩, []⟩ ⟨rfl, rfl⟩
  show ((coreProg env yamlByt comp isDel msg).run sched
    ((coreProg env yamlByt comp isDel msg).step c (coreInit []))).shared.ret = _
  rw [h1]
  exact key.1

/-- With at least one target `handleConsulCoreComponents` returns only from the paths before
the fan-out: every returned pair is the empty message with a failure. -/
theorem handleConsulCoreComponents_returns_only_failure (env : Env) (sched : List Nat)
    (comp : Component) (isDel : Bool) (apiVersion kind : String) (k : String)
    (ks : List String) (r : String × Option GoError)
    (h : (handleConsulCoreComponents env sched comp isDel apiVersion kind (k :: ks)).ret
      = some r) : r.1 = "" ∧ r.2.isSome = true := by
  unfold handleConsulCoreComponents at h
  simp only at h
  by_cases h1 : apiVersion = "" ∧ (if apiVersion = "" then getAPIVersionFromComponent comp
      else apiVersion) = ""
  · rw [if_pos h1] at h
    cases h; exact ⟨rfl, rfl⟩
  · rw [if_neg h1] at h
    by_cases h2 : kind = "" ∧ (if kind = "" then getKindFromComponent comp else kind) = ""
    · rw [if_pos h2] at h
      cases h; exact ⟨rfl, rfl⟩
    · rw [if_neg h2] at h
      split at h
      · cases h; exact ⟨rfl, rfl⟩
      · rw [coreProg_never_returns] at h
        cases h

/-- C2 (fails on the code): the goroutines of `handleConsulCoreComponents` never call
`wg.Done()`, so with one target the call does not return under any schedule, although the
task itself runs to its end (the manifest is applied after three steps). Only with no target
at all does the call return the status message and no failure. In every environment a call
with at least one target returns, if at all, the empty message with a failure raised before
the fan-out. -/
theorem handleConsulCoreComponents_blocks_on_wait :
    (∀ sched : List Nat,
      (handleConsulCoreComponents demoEnv sched redis false "" "" ["kubeconfig"]).ret = none)
    ∧ (∀ (env : Env) (sched : List Nat) (comp : Component) (isDel : Bool)
        (apiVersion kind k : String) (ks : List String) (r : String × Option GoError),
        (handleConsulCoreComponents env sched comp isDel apiVersion kind (k :: ks)).ret = some r →
        r.1 = "" ∧ r.2.isSome = true)
    ∧ handleConsulCoreComponents demoEnv [0, 0, 0] redis false "" "" ["kubeconfig"]
        = ⟨[Effect.goroutine "kubeconfig", Effect.New "kubeconfig",
            Effect.ApplyManifest ⟨"kubeconfig", "host"⟩ "v1/Pod/redis" ⟨"default", true, false⟩],
           none⟩
    ∧ (∀ (c : Nat) (sched : List Nat),
      (handleConsulCoreComponents demoEnv (c :: sched) redis false "" "" []).ret
        = some ("created Pod \"redis\" in namespace \"default\"", none)) := by
  refine ⟨?_, ?_, by decide, ?_⟩
  · intro sched
    rw [handleConsulCoreComponents_fanout demoEnv sched redis false "" "" ["kubeconfig"]
      "v1/Pod/redis" (by decide) (by decide) rfl]
    exact coreProg_never_returns _ _ _ _ _ _ _ _
  · intro env sched comp isDel apiVersion kind k ks r h
    exact handleConsulCoreComponents_returns_only_failure env sched comp isDel apiVersion kind
      k ks r h
  · intro c sched
    rw [handleConsulCoreComponents_fanout demoEnv (c :: sched) redis false "" "" []
      "v1/Pod/redis" (by decide) (by decide) rfl]
    exact (coreProg_no_target _ _ _ _ _ _ _).trans (by decide)

/-! ## The fan-out of `ApplyOperation` -/

/-- One step of a goroutine of `ApplyOperation`: it appends effects that are neither
informational events, nor task starts, nor dispatch calls; it constructs a client exactly at
its first step; a failed endpoint resolution comes with its failure event; and it either
continues with a smaller remainder or ends at the deferred `wg.Done()`. -/
theorem opProg_taskStep_spec (env : Env) (request : OperationRequest) (operation : Operation)
    (t : OpTask) (sh : OpShared) :
    ∃ ext : List Effect,
      ((opProg env request operation).taskStep t sh).1.trace = sh.trace ++ ext
      ∧ ((opProg env request operation).taskStep t sh).1.toSpawn = sh.toSpawn
      ∧ ((opProg env request operation).taskStep t sh).1.ret = sh.ret
      ∧ ext.countP Effect.isInfo = 0
      ∧ ext.countP Effect.isGoroutine = 0
      ∧ ext.filter Effect.isDispatch = []
      ∧ ext.countP Effect.isNew = OpTask.isStart t
      ∧ (∀ kClient svc ns err, Effect.GetServiceEndpoint kClient svc ns ∈ ext →
          env.GetServiceEndpoint kClient svc ns = Except.error err →
          ∃ e, Effect.StreamErr e err ∈ ext)
      ∧ (∀ e err, Effect.StreamErr e err ∈ ext →
          ∃ kClient svc ns, env.GetServiceEndpoint kClient svc ns = Except.error err)
      ∧ ((∃ t', ((opProg env request operation).taskStep t sh).2 = some t'
            ∧ ((opProg env request operation).taskStep t sh).1.wg = sh.wg
            ∧ opTaskSize operation t' < opTaskSize operation t
            ∧ OpTask.isStart t' = 0
            ∧ ext.countP Effect.isDone = 0)
          ∨ (((opProg env request operation).taskStep t sh).2 = none
            ∧ ((opProg env request operation).taskStep t sh).1.wg = sh.wg - 1
            ∧ t = OpTask.done
            ∧ ext.countP Effect.isDone = 1)) := by
  cases t with
  | start k =>
    cases hN : env.New k with
    | error err =>
      have hs : (opProg env request operation).taskStep (OpTask.start k) sh
          = ({ sh with errs := sh.errs ++ [err], trace := sh.trace ++ [Effect.New k] },
              some OpTask.done) := by
        simp only [opProg, hN]
      rw [hs]
      refine ⟨[Effect.New k], rfl, rfl, rfl, rfl, rfl, rfl, rfl, ?_, ?_,
        Or.inl ⟨OpTask.done, rfl, rfl, ?_, rfl, rfl⟩⟩
      · intro kClient svc ns err h; simp at h
      · intro e err h; simp at h
      · simp [opTaskSize]
    | ok kClient =>
      by_cases hc : (!request.IsDeleteOperation && decide (operation.Services.length > 0)) = true
      · have hs : (opProg env request operation).taskStep (OpTask.start k) sh
            = ({ sh with trace := sh.trace ++ [Effect.New k] },
                some (OpTask.services kClient operation.Services)) := by
          simp only [opProg, hN, hc, if_true]
        rw [hs]
        refine ⟨[Effect.New k], rfl, rfl, rfl, rfl, rfl, rfl, rfl, ?_, ?_,
          Or.inl ⟨OpTask.services kClient operation.Services, rfl, rfl, ?_, rfl, rfl⟩⟩
        · intro kClient svc ns err h; simp at h
        · intro e err h; simp at h
        · simp [opTaskSize]
      · have hs : (opProg env request operation).taskStep (OpTask.start k) sh
            = ({ sh with trace := sh.trace ++ [Effect.New k] }, some OpTask.done) := by
          simp only [opProg, hN, hc]
          rfl
        rw [hs]
        refine ⟨[Effect.New k], rfl, rfl, rfl, rfl, rfl, rfl, rfl, ?_, ?_,
          Or.inl ⟨OpTask.done, rfl, rfl, ?_, rfl, rfl⟩⟩
        · intro kClient svc ns err h; simp at h
        · intro e err h; simp at h
        · simp [opTaskSize]
  | services kClient rest =>
    cases rest with
    | nil =>
      have hs : (opProg env request operation).taskStep (OpTask.services kClient []) sh
          = (sh, some OpTask.done) := rfl
      rw [hs]
      refine ⟨[], (List.append_nil _).symm, rfl, rfl, rfl, rfl, rfl, rfl, ?_, ?_,
        Or.inl ⟨OpTask.done, rfl, rfl, ?_, rfl, rfl⟩⟩
      · intro kClient svc ns err h; simp at h
      · intro e err h; simp at h
      · simp [opTaskSize]
    | cons service rest =>
      by_cases hl : (TrimSpace service).length > 0
      · cases hG : env.GetServiceEndpoint kClient (TrimSpace service) request.Namespace with
        | error err1 =>
          have hs : (opProg env request operation).taskStep
              (OpTask.services kClient (service :: rest)) sh
              = ({ sh with
                    e := streamErr env ("Unable to retrieve service endpoint for the service "
                      ++ TrimSpace service ++ ".") sh.e err1,
                    trace := sh.trace ++
                      [Effect.GetServiceEndpoint kClient (TrimSpace service) request.Namespace,
                        Effect.StreamErr (streamErr env
                          ("Unable to retrieve service endpoint for the service "
                            ++ TrimSpace service ++ ".") sh.e err1) err1] },
                  some (OpTask.services kClient rest)) := by
            simp only [opProg, hG, hl, if_true]
          rw [hs]
          refine ⟨[Effect.GetServiceEndpoint kClient (TrimSpace service) request.Namespace,
            Effect.StreamErr (streamErr env ("Unable to retrieve service endpoint for the service "
              ++ TrimSpace service ++ ".") sh.e err1) err1],
            rfl, rfl, rfl, rfl, rfl, rfl, rfl, ?_, ?_,
            Or.inl ⟨OpTask.services kClient rest, rfl, rfl, ?_, rfl, rfl⟩⟩
          · intro kClient' svc ns err h hE
            simp at h
            obtain ⟨h1, h2, h3⟩ := h
            subst h1 h2 h3
            rw [hG] at hE
            cases hE
            exact ⟨streamErr env ("Unable to retrieve service endpoint for the service "
              ++ TrimSpace service ++ ".") sh.e err1, by simp⟩
          · intro e err h
            simp at h
            exact ⟨kClient, TrimSpace service, request.Namespace, by rw [hG, h.2]⟩
          · simp [opTaskSize]
        | ok endpoint =>
          have hs : ∃ sh', (opProg env request operation).taskStep
              (OpTask.services kClient (service :: rest)) sh
                = (sh', some (OpTask.services kClient rest))
              ∧ sh'.trace = sh.trace ++
                [Effect.GetServiceEndpoint kClient (TrimSpace service) request.Namespace]
              ∧ sh'.toSpawn = sh.toSpawn ∧ sh'.ret = sh.ret ∧ sh'.wg = sh.wg := by
            simp only [opProg, hG, hl, if_true]
            exact ⟨_, rfl, rfl, rfl, rfl, rfl⟩
          obtain ⟨sh', hs, h1, h2, h3, h4⟩ := hs
          rw [hs]
          refine ⟨[Effect.GetServiceEndpoint kClient (TrimSpace service) request.Namespace],
            h1, h2, h3, rfl, rfl, rfl, rfl, ?_, ?_,
            Or.inl ⟨OpTask.services kClient rest, rfl, h4, ?_, rfl, rfl⟩⟩
          · intro kClient' svc ns err h hE
            simp at h
            obtain ⟨h1, h2, h3⟩ := h
            subst h1 h2 h3
            rw [hG] at hE
            cases hE
          · intro e err h; simp at h
          · simp [opTaskSize]
      · have hs : (opProg env request operation).taskStep
            (OpTask.services kClient (service :: rest)) sh
            = (sh, some (OpTask.services kClient rest)) := by
          simp only [opProg, hl, if_false]
        rw [hs]
        refine ⟨[], (List.append_nil _).symm, rfl, rfl, rfl, rfl, rfl, rfl, ?_, ?_,
          Or.inl ⟨OpTask.services kClient rest, rfl, rfl, ?_, rfl, rfl⟩⟩
        · intro kClient svc ns err h; simp at h
        · intro e err h; simp at h
        · simp [opTaskSize]
  | done =>
    have hs : (opProg env request operation).taskStep OpTask.done sh
        = ({ sh with wg := sh.wg - 1, trace := sh.trace ++ [Effect.wgDone] }, none) := rfl
    rw [hs]
    refine ⟨[Effect.wgDone], rfl, rfl, rfl, rfl, rfl, rfl, rfl, ?_, ?_,
      Or.inr ⟨rfl, rfl, rfl, rfl⟩⟩
    · intro kClient svc ns err h; simp at h
    · intro e err h; simp at h

theorem opProg_mainEnabled_iff (env : Env) (request : OperationRequest) (operation : Operation)
    (sh : OpShared) :
    (opProg env request operation).mainEnabled sh = true
      ↔ sh.ret = none ∧ (sh.toSpawn ≠ [] ∨ sh.wg = 0) := by
  simp only [opProg]
  cases sh.ret <;> cases sh.toSpawn <;> simp

/-- The invariant of the fan-out of `ApplyOperation` is kept by the spawning routine. -/
theorem opProg_stepMain_inv (env : Env) (request : OperationRequest) (operation : Operation)
    (n : Nat) (init : List Effect) (s : Conf OpShared OpTask) (h : OpInv env n init s)
    (hm : (opProg env request operation).mainEnabled s.shared = true) :
    OpInv env n init ((opProg env request operation).stepMain s) := by
  obtain ⟨hr, hen⟩ := (opProg_mainEnabled_iff env request operation s.shared).mp hm
  cases hts : s.shared.toSpawn with
  | cons k rest =>
    have hs : (opProg env request operation).stepMain s
        = ⟨{ s.shared with
              toSpawn := rest
              wg := s.shared.wg + 1
              trace := s.shared.trace ++ [Effect.goroutine k] },
            s.running ++ [OpTask.start k]⟩ := by
      simp only [Prog.stepMain, opProg, hts]
    rw [hs]
    have hnews := h.news
    have hsp := h.spawned
    have hdn := h.dones
    rw [hts] at hnews hsp hdn
    simp only [List.length_cons] at hnews hsp hdn
    refine ⟨?_, ?_, ?_, ?_, ?_, ?_, ?_, ?_, ?_, ?_⟩
    · simp [h.wg_eq]
    · exact Or.inl hr
    · intro h'; simp [hr] at h'
    · intro _
      simp [List.countP_append, h.no_info hr, List.countP_cons, Effect.isInfo]
    · simp only [List.countP_append, total_append]
      simp only [total, List.countP_cons, List.countP_nil, Effect.isNew, OpTask.isStart,
        List.map_cons, List.map_nil, List.sum_cons, List.sum_nil] at hnews ⊢
      simp at hnews ⊢
      omega
    · simp only [List.countP_append, List.countP_cons, List.countP_nil, Effect.isGoroutine]
      simp
      omega
    · simp only [List.countP_append, List.countP_cons, List.countP_nil, Effect.isDone,
        List.length_append, List.length_cons, List.length_nil]
      simp
      omega
    · simp [List.filter_append, h.dispatch, Effect.isDispatch, Effect.isHelm,
        Effect.isManifests]
    · intro kClient svc ns err hmem hE
      simp only [List.mem_append, List.mem_singleton] at hmem
      rcases hmem with hmem | hmem
      · obtain ⟨e, he⟩ := h.warned kClient svc ns err hmem hE
        exact ⟨e, by simp [he]⟩
      · cases hmem
    · intro e err hmem
      simp only [List.mem_append, List.mem_singleton] at hmem
      rcases hmem with hmem | hmem
      · exact h.errors e err hmem
      · cases hmem
  | nil =>
    have hwg : s.shared.wg = 0 := by
      rcases hen with hen | hen
      · exact absurd hts hen
      · exact hen
    have hrun : s.running = [] := List.length_eq_zero.mp (by rw [← h.wg_eq, hwg])
    have hs : (opProg env request operation).stepMain s
        = ⟨{ s.shared with
              trace := s.shared.trace ++ [Effect.StreamInfo s.shared.e]
              ret := some none }, s.running⟩ := by
      simp only [Prog.stepMain, opProg, hts]
    rw [hs]
    have hnews := h.news
    have hsp := h.spawned
    have hdn := h.dones
    refine ⟨h.wg_eq, Or.inr rfl, ?_, ?_, ?_, ?_, ?_, ?_, ?_, ?_⟩
    · intro _
      exact ⟨hrun, hts, s.shared.trace, s.shared.e, rfl, h.no_info hr⟩
    · intro h'; cases h'
    · simp only [List.countP_append, List.countP_cons, List.countP_nil, Effect.isNew]
      simp
      exact hnews
    · simp only [List.countP_append, List.countP_cons, List.countP_nil, Effect.isGoroutine]
      simp
      exact hsp
    · simp only [List.countP_append, List.countP_cons, List.countP_nil, Effect.isDone]
      simp
      exact hdn
    · simp [List.filter_append, h.dispatch, Effect.isDispatch, Effect.isHelm,
        Effect.isManifests]
    · intro kClient svc ns err hmem hE
      simp only [List.mem_append, List.mem_singleton] at hmem
      rcases hmem with hmem | hmem
      · obtain ⟨e, he⟩ := h.warned kClient svc ns err hmem hE
        exact ⟨e, by simp [he]⟩
      · cases hmem
    · intro e err hmem
      simp only [List.mem_append, List.mem_singleton] at hmem
      rcases hmem with hmem | hmem
      · exact h.errors e err hmem
      · cases hmem

/-- The invariant of the fan-out of `ApplyOperation` is kept by every goroutine step. -/
theorem opProg_applyTask_inv (env : Env) (request : OperationRequest) (operation : Operation)
    (n : Nat) (init : List Effect) (s : Conf OpShared OpTask) (i : Nat) (t : OpTask)
    (h : OpInv env n init s) (ht : s.running.get? i = some t) :
    OpInv env n init ((opProg env request operation).applyTask i t s) := by
  have hr : s.shared.ret = none := by
    rcases h.ret_cases with hr | hr
    · exact hr
    · rw [(h.final hr).1] at ht
      simp at ht
  obtain ⟨ext, htr, hsp, hret, hinfo, hgo, hdis, hnew, hwarn, herr, hcont⟩ :=
    opProg_taskStep_spec env request operation t s.shared
  have hnews := h.news
  have hspawn := h.spawned
  have hdn := h.dones
  refine ⟨?_, ?_, ?_, ?_, ?_, ?_, ?_, ?_, ?_, ?_⟩
  · rw [Prog.applyTask_shared]
    rcases hcont with ⟨t', h2, hwg, _, _, _⟩ | ⟨h2, hwg, _, _⟩
    · rw [Prog.applyTask_running_some _ _ _ _ _ h2, hwg, List.length_set]
      exact h.wg_eq
    · rw [Prog.applyTask_running_none _ _ _ _ h2, hwg]
      have := length_eraseIdx_of_get? s.running i t ht
      have := h.wg_eq
      omega
  · rw [Prog.applyTask_shared, hret]
    exact Or.inl hr
  · rw [Prog.applyTask_shared, hret]
    intro h'
    rw [hr] at h'
    cases h'
  · rw [Prog.applyTask_shared, htr]
    intro _
    rw [List.countP_append, h.no_info hr, hinfo]
  · rw [Prog.applyTask_shared, htr, hsp, List.countP_append, hnew]
    rcases hcont with ⟨t', h2, _, _, hst, _⟩ | ⟨h2, _, hd, _⟩
    · rw [Prog.applyTask_running_some _ _ _ _ _ h2]
      have := total_set OpTask.isStart s.running i t t' ht
      omega
    · rw [Prog.applyTask_running_none _ _ _ _ h2]
      have := total_eraseIdx OpTask.isStart s.running i t ht
      omega
  · rw [Prog.applyTask_shared, htr, hsp, List.countP_append, hgo]
    exact hspawn
  · rw [Prog.applyTask_shared, htr, hsp, List.countP_append]
    rcases hcont with ⟨t', h2, _, _, _, hd0⟩ | ⟨h2, _, _, hd1⟩
    · rw [Prog.applyTask_running_some _ _ _ _ _ h2, List.length_set, hd0]
      exact hdn
    · rw [Prog.applyTask_running_none _ _ _ _ h2, hd1]
      have := length_eraseIdx_of_get? s.running i t ht
      omega
  · rw [Prog.applyTask_shared, htr, List.filter_append, hdis, List.append_nil]
    exact h.dispatch
  · rw [Prog.applyTask_shared, htr]
    intro kClient svc ns err hmem hE
    rcases List.mem_append.mp hmem with hmem | hmem
    · obtain ⟨e, he⟩ := h.warned kClient svc ns err hmem hE
      exact ⟨e, List.mem_append.mpr (Or.inl he)⟩
    · obtain ⟨e, he⟩ := hwarn kClient svc ns err hmem hE
      exact ⟨e, List.mem_append.mpr (Or.inr he)⟩
  · rw [Prog.applyTask_shared, htr]
    intro e err hmem
    rcases List.mem_append.mp hmem with hmem | hmem
    · exact h.errors e err hmem
    · exact Or.inr (herr e err hmem)

/-- The invariant of the fan-out of `ApplyOperation` is kept by every scheduling decision. -/
theorem opProg_step_inv (env : Env) (request : OperationRequest) (operation : Operation)
    (n : Nat) (init : List Effect) (c : Nat) (s : Conf OpShared OpTask)
    (h : OpInv env n init s) : OpInv env n init ((opProg env request operation).step c s) :=
  (opProg env request operation).step_preserves (OpInv env n init)
    (fun s hs hm => opProg_stepMain_inv env request operation n init s hs hm)
    (fun s i t hs ht => opProg_applyTask_inv env request operation n init s i t hs ht) c s h

/-- Once `ApplyOperation` has returned nothing moves any more. -/
theorem opProg_step_final (env : Env) (request : OperationRequest) (operation : Operation)
    (n : Nat) (init : List Effect) (c : Nat) (s : Conf OpShared OpTask)
    (h : OpInv env n init s) (hr : s.shared.ret = some none) :
    (opProg env request operation).step c s = s := by
  rcases (opProg env request operation).step_cases c s with ⟨_, _, he⟩ | ⟨hm, _⟩ | ⟨i, t, ht, _⟩
  · exact he
  · have := ((opProg_mainEnabled_iff env request operation s.shared).mp hm).1
    rw [hr] at this
    cases this
  · rw [(h.final hr).1] at ht
    simp at ht

theorem opProg_run_final (env : Env) (request : OperationRequest) (operation : Operation)
    (n : Nat) (init : List Effect) :
    ∀ (sched : List Nat) (s : Conf OpShared OpTask), OpInv env n init s →
      s.shared.ret = some none → (opProg env request operation).run sched s = s := by
  intro sched
  induction sched with
  | nil => intro s _ _; rfl
  | cons c cs ih =>
    intro s h hr
    show (opProg env request operation).run cs ((opProg env request operation).step c s) = s
    rw [opProg_step_final env request operation n init c s h hr]
    exact ih s h hr

/-- While `ApplyOperation` has not returned, every scheduling decision makes progress: the
fan-out cannot deadlock and the number of remaining steps decreases. -/
theorem opProg_step_measure (env : Env) (request : OperationRequest) (operation : Operation)
    (n : Nat) (init : List Effect) (c : Nat) (s : Conf OpShared OpTask)
    (h : OpInv env n init s) (hr : s.shared.ret = none) :
    opMeasure operation ((opProg env request operation).step c s) < opMeasure operation s := by
  rcases (opProg env request operation).step_cases c s with
    ⟨hm, hrun, _⟩ | ⟨hm, he⟩ | ⟨i, t, ht, he⟩
  · exfalso
    have hne : ¬ ((opProg env request operation).mainEnabled s.shared = true) := by
      rw [hm]; simp
    apply hne
    rw [opProg_mainEnabled_iff]
    refine ⟨hr, Or.inr ?_⟩
    rw [h.wg_eq, hrun]
    rfl
  · rw [he]
    cases hts : s.shared.toSpawn with
    | cons k rest =>
      have hs : (opProg env request operation).stepMain s
          = ⟨{ s.shared with
                toSpawn := rest
                wg := s.shared.wg + 1
                trace := s.shared.trace ++ [Effect.goroutine k] },
              s.running ++ [OpTask.start k]⟩ := by
        simp only [Prog.stepMain, opProg, hts]
      rw [hs]
      simp only [opMeasure, hr, hts, total_append, List.length_cons]
      simp only [total, List.map_cons, List.map_nil, List.sum_cons, List.sum_nil, opTaskSize,
        Nat.succ_mul, Nat.add_mul]
      simp
      omega
    | nil =>
      have hs : (opProg env request operation).stepMain s
          = ⟨{ s.shared with
                trace := s.shared.trace ++ [Effect.StreamInfo s.shared.e]
                ret := some none }, s.running⟩ := by
        simp only [Prog.stepMain, opProg, hts]
      rw [hs]
      simp only [opMeasure, hr, hts]
      simp
  · rw [he]
    obtain ⟨ext, _, hsp, hret, _, _, _, _, _, _, hcont⟩ :=
      opProg_taskStep_spec env request operation t s.shared
    simp only [opMeasure, Prog.applyTask_shared, hsp, hret, hr]
    rcases hcont with ⟨t', h2, _, hlt, _, _⟩ | ⟨h2, _, hd, _⟩
    · rw [Prog.applyTask_running_some _ _ _ _ _ h2]
      have := total_set (opTaskSize operation) s.running i t t' ht
      omega
    · rw [Prog.applyTask_running_none _ _ _ _ h2]
      have := total_eraseIdx (opTaskSize operation) s.running i t ht
      have : opTaskSize operation t = 1 := by rw [hd]; rfl
      omega

/-- Every schedule at least as long as the number of remaining steps runs the fan-out of
`ApplyOperation` to its return. -/
theorem opProg_run_returns (env : Env) (request : OperationRequest) (operation : Operation)
    (n : Nat) (init : List Effect) :
    ∀ (sched : List Nat) (s : Conf OpShared OpTask), OpInv env n init s →
      opMeasure operation s ≤ sched.length →
      ((opProg env request operation).run sched s).shared.ret = some none := by
  intro sched
  induction sched with
  | nil =>
    intro s h hle
    rcases h.ret_cases with hr | hr
    · simp [opMeasure, hr] at hle
    · exact hr
  | cons c cs ih =>
    intro s h hle
    rcases h.ret_cases with hr | hr
    · have hlt := opProg_step_measure env request operation n init c s h hr
      have hinv := opProg_step_inv env request operation n init c s h
      simp only [List.length_cons] at hle
      exact ih ((opProg env request operation).step c s) hinv (by omega)
    · rw [opProg_run_final env request operation n init (c :: cs) s h hr]
      exact hr

/-- The invariant holds when the fan-out of `ApplyOperation` starts after a dispatch call. -/
theorem opInit_inv (env : Env) (kubeconfigs : List String) (e : EventsResponse) (call : Effect)
    (hc : call.isDispatch = true) :
    OpInv env kubeconfigs.length [call] (opInit kubeconfigs e [call]) := by
  have hcall : call.isInfo = false ∧ call.isNew = false ∧ call.isGoroutine = false
      ∧ call.isDone = false ∧ call.failure = none
      ∧ ∀ kClient svc ns, call ≠ Effect.GetServiceEndpoint kClient svc ns := by
    cases call <;> simp [Effect.isDispatch, Effect.isHelm, Effect.isManifests] at hc <;>
      simp [Effect.isInfo, Effect.isNew, Effect.isGoroutine, Effect.isDone, Effect.failure]
  obtain ⟨h1, h2, h3, h4, h5, h6⟩ := hcall
  refine ⟨rfl, Or.inl rfl, ?_, ?_, ?_, ?_, ?_, rfl, ?_, ?_⟩
  · intro h; cases h
  · intro _; simp [opInit, h1]
  · simp [opInit, h2, total]
  · simp [opInit, h3]
  · simp [opInit, h4]
  · intro kClient svc ns err hmem _
    simp only [opInit, List.mem_singleton] at hmem
    exact absurd hmem.symm (h6 kClient svc ns)
  · intro e' err hmem
    exact Or.inl hmem

/-- Every schedule long enough runs the fan-out of `ApplyOperation` to the end: the call
returns `nil`; its last effect is the informational event, the only one; before it every
target task was started, constructed its client and called `wg.Done()`; the dispatch call is
the only one; and every failed endpoint resolution was reported by a failure event. -/
theorem opProg_complete (env : Env) (request : OperationRequest) (operation : Operation)
    (kubeconfigs : List String) (e : EventsResponse) (call : Effect)
    (hc : call.isDispatch = true) (sched : List Nat)
    (hs : kubeconfigs.length * (operation.Services.length + 4) + 1 ≤ sched.length) :
    ((opProg env request operation).run sched (opInit kubeconfigs e [call])).shared.ret
      = some none
    ∧ ∃ pre e',
      ((opProg env request operation).run sched (opInit kubeconfigs e [call])).shared.trace
        = pre ++ [Effect.StreamInfo e']
      ∧ pre.countP Effect.isInfo = 0
      ∧ pre.countP Effect.isGoroutine = kubeconfigs.length
      ∧ pre.countP Effect.isNew = kubeconfigs.length
      ∧ pre.countP Effect.isDone = kubeconfigs.length
      ∧ pre.filter Effect.isDispatch = [call]
      ∧ (∀ kClient svc ns err, Effect.GetServiceEndpoint kClient svc ns ∈ pre →
          env.GetServiceEndpoint kClient svc ns = Except.error err →
          ∃ e'', Effect.StreamErr e'' err ∈ pre) := by
  have h0 := opInit_inv env kubeconfigs e call hc
  have hinv := (opProg env request operation).run_preserves (OpInv env kubeconfigs.length [call])
    (fun c s h => opProg_step_inv env request operation _ _ c s h) sched _ h0
  have hret := opProg_run_returns env request operation kubeconfigs.length [call] sched _ h0
    (by simp [opMeasure, opInit, total]; omega)
  refine ⟨hret, ?_⟩
  obtain ⟨hrun, hts, pre, e', htr, hpre⟩ := hinv.final hret
  refine ⟨pre, e', htr, hpre, ?_, ?_, ?_, ?_, ?_⟩
  · have := hinv.spawned
    rw [htr, hts] at this
    simpa [List.countP_append, Effect.isGoroutine] using this
  · have := hinv.news
    rw [htr, hts, hrun] at this
    simpa [List.countP_append, Effect.isNew, total] using this
  · have := hinv.dones
    rw [htr, hts, hrun] at this
    simpa [List.countP_append, Effect.isDone] using this
  · have := hinv.dispatch
    rw [htr] at this
    have hcall : List.filter Effect.isDispatch [call] = [call] := by simp [hc]
    rw [hcall] at this
    simpa [List.filter_append, Effect.isDispatch, Effect.isHelm, Effect.isManifests]
      using this
  · intro kClient svc ns err hmem hE
    obtain ⟨e'', he⟩ := hinv.warned kClient svc ns err
      (by rw [htr]; exact List.mem_append.mpr (Or.inl hmem)) hE
    rw [htr] at he
    rcases List.mem_append.mp he with he | he
    · exact ⟨e'', he⟩
    · simp at he

/-- Under every schedule the fan-out of `ApplyOperation` returns nothing but `nil`, and its
dispatch calls are those made before it started. -/
theorem opProg_any_schedule (env : Env) (request : OperationRequest) (operation : Operation)
    (kubeconfigs : List String) (e : EventsResponse) (call : Effect)
    (hc : call.isDispatch = true) (sched : List Nat) :
    (((opProg env request operation).run sched (opInit kubeconfigs e [call])).shared.ret = none
      ∨ ((opProg env request operation).run sched (opInit kubeconfigs e [call])).shared.ret
        = some none)
    ∧ ((opProg env request operation).run sched
        (opInit kubeconfigs e [call])).shared.trace.filter Effect.isDispatch = [call] := by
  have h0 := opInit_inv env kubeconfigs e call hc
  have hinv := (opProg env request operation).run_preserves (OpInv env kubeconfigs.length [call])
    (fun c s h => opProg_step_inv env request operation _ _ c s h) sched _ h0
  refine ⟨hinv.ret_cases, ?_⟩
  rw [hinv.dispatch]
  simp [hc]

/-! ## The paths of `ApplyOperation` -/

theorem ApplyOperation_unknown (env : Env) (request : OperationRequest) (sched : List Nat)
    (operations : List (String × Operation))
    (hk : env.CreateKubeconfigs request.K8sConfigs = none)
    (hc : env.GetObject = Except.ok operations)
    (hl : operations.lookup request.OperationName = none) :
    ∃ e, ApplyOperation env request sched
      = ⟨[Effect.StreamErr e env.ErrOpInvalid], some (some env.ErrOpInvalid)⟩ := by
  unfold ApplyOperation
  simp only [hk, hc, hl]
  exact ⟨_, rfl⟩

theorem ApplyOperation_helm_failure (env : Env) (request : OperationRequest) (sched : List Nat)
    (operations : List (String × Operation)) (operation : Operation) (err : GoError)
    (hk : env.CreateKubeconfigs request.K8sConfigs = none)
    (hc : env.GetObject = Except.ok operations)
    (hl : operations.lookup request.OperationName = some operation)
    (hn : request.OperationName = env.ConsulOperation)
    (hr : (helmResult env request operation).2 = some err) :
    ∃ e, ApplyOperation env request sched
      = ⟨[helmCall env request operation, Effect.StreamErr e err], some (some err)⟩ := by
  unfold helmResult at hr
  unfold ApplyOperation
  simp only [hk, hc, hl, if_pos hn]
  rcases hres : env.applyHelmChart request.IsDeleteOperation
    (mapGet operation.AdditionalProperties env.HelmChartVersionKey) request.Namespace
    request.K8sConfigs with ⟨status, _ | err'⟩
  · rw [hres] at hr; cases hr
  · rw [hres] at hr
    cases hr
    exact ⟨_, rfl⟩

theorem ApplyOperation_helm_success (env : Env) (request : OperationRequest) (sched : List Nat)
    (operations : List (String × Operation)) (operation : Operation)
    (hk : env.CreateKubeconfigs request.K8sConfigs = none)
    (hc : env.GetObject = Except.ok operations)
    (hl : operations.lookup request.OperationName = some operation)
    (hn : request.OperationName = env.ConsulOperation)
    (hr : (helmResult env request operation).2 = none) :
    ∃ e, ApplyOperation env request sched
      = ⟨((opProg env request operation).run sched
            (opInit request.K8sConfigs e [helmCall env request operation])).shared.trace,
         ((opProg env request operation).run sched
            (opInit request.K8sConfigs e [helmCall env request operation])).shared.ret⟩ := by
  unfold helmResult at hr
  unfold ApplyOperation
  simp only [hk, hc, hl, if_pos hn]
  rcases hres : env.applyHelmChart request.IsDeleteOperation
    (mapGet operation.AdditionalProperties env.HelmChartVersionKey) request.Namespace
    request.K8sConfigs with ⟨status, _ | err'⟩
  · exact ⟨_, rfl⟩
  · rw [hres] at hr; cases hr

theorem ApplyOperation_manifests_failure (env : Env) (request : OperationRequest)
    (sched : List Nat) (operations : List (String × Operation)) (operation : Operation)
    (err : GoError)
    (hk : env.CreateKubeconfigs request.K8sConfigs = none)
    (hc : env.GetObject = Except.ok operations)
    (hl : operations.lookup request.OperationName = some operation)
    (hn : request.OperationName ≠ env.ConsulOperation)
    (hm : request.OperationName ∈ manifestOperations env)
    (hr : (manifestsResult env request operation).2 = some err) :
    ∃ e, ApplyOperation env request sched
      = ⟨[manifestsCall request operation, Effect.StreamErr e err], some (some err)⟩ := by
  unfold manifestsResult at hr
  unfold ApplyOperation
  simp only [hk, hc, hl, if_neg hn, if_pos hm]
  rcases hres : env.applyManifests request operation request.K8sConfigs with
    ⟨status, _ | err'⟩
  · rw [hres] at hr; cases hr
  · rw [hres] at hr
    cases hr
    exact ⟨_, rfl⟩

theorem ApplyOperation_manifests_success (env : Env) (request : OperationRequest)
    (sched : List Nat) (operations : List (String × Operation)) (operation : Operation)
    (hk : env.CreateKubeconfigs request.K8sConfigs = none)
    (hc : env.GetObject = Except.ok operations)
    (hl : operations.lookup request.OperationName = some operation)
    (hn : request.OperationName ≠ env.ConsulOperation)
    (hm : request.OperationName ∈ manifestOperations env)
    (hr : (manifestsResult env request operation).2 = none) :
    ∃ e, ApplyOperation env request sched
      = ⟨((opProg env request operation).run sched
            (opInit request.K8sConfigs e [manifestsCall request operation])).shared.trace,
         ((opProg env request operation).run sched
            (opInit request.K8sConfigs e [manifestsCall request operation])).shared.ret⟩ := by
  unfold manifestsResult at hr
  unfold ApplyOperation
  simp only [hk, hc, hl, if_neg hn, if_pos hm]
  rcases hres : env.applyManifests request operation request.K8sConfigs with
    ⟨status, _ | err'⟩
  · exact ⟨_, rfl⟩
  · rw [hres] at hr; cases hr

theorem ApplyOperation_default (env : Env) (request : OperationRequest) (sched : List Nat)
    (operations : List (String × Operation)) (operation : Operation)
    (hk : env.CreateKubeconfigs request.K8sConfigs = none)
    (hc : env.GetObject = Except.ok operations)
    (hl : operations.lookup request.OperationName = some operation)
    (hn : request.OperationName ≠ env.ConsulOperation)
    (hm : request.OperationName ∉ manifestOperations env) :
    ∃ e, ApplyOperation env request sched
      = ⟨[Effect.StreamErr e env.ErrOpInvalid], some (some env.ErrOpInvalid)⟩ := by
  unfold ApplyOperation
  simp only [hk, hc, hl, if_neg hn, if_neg hm]
  exact ⟨_, rfl⟩

theorem helmCall_isDispatch (env : Env) (request : OperationRequest) (operation : Operation) :
    (helmCall env request operation).isDispatch = true := rfl

theorem manifestsCall_isDispatch (request : OperationRequest) (operation : Operation) :
    (manifestsCall request operation).isDispatch = true := rfl

/-! ## Operation catalog lookup and dispatch -/

/-- A failure returned by `ApplyOperation` for a resolved name is the failure of the chart
installer, the failure of the manifest-apply routine, or `adapter.ErrOpInvalid` for a name
outside the six of the `switch`. -/
theorem ApplyOperation_failure_origin (env : Env) (request : OperationRequest)
    (sched : List Nat) (operations : List (String × Operation)) (operation : Operation)
    (hk : env.CreateKubeconfigs request.K8sConfigs = none)
    (hc : env.GetObject = Except.ok operations)
    (hl : operations.lookup request.OperationName = some operation) (err : GoError)
    (hret : (ApplyOperation env request sched).ret = some (some err)) :
    (request.OperationName = env.ConsulOperation
      ∧ (helmResult env request operation).2 = some err)
    ∨ (request.OperationName ≠ env.ConsulOperation
      ∧ request.OperationName ∈ manifestOperations env
      ∧ (manifestsResult env request operation).2 = some err)
    ∨ (request.OperationName ≠ env.ConsulOperation
      ∧ request.OperationName ∉ manifestOperations env
      ∧ err = env.ErrOpInvalid) := by
  by_cases hn : request.OperationName = env.ConsulOperation
  · cases hr : (helmResult env request operation).2 with
    | none =>
      obtain ⟨e, he⟩ := ApplyOperation_helm_success env request sched operations operation
        hk hc hl hn hr
      obtain ⟨hcases, _⟩ := opProg_any_schedule env request operation request.K8sConfigs e
        (helmCall env request operation) (helmCall_isDispatch env request operation) sched
      rw [he] at hret
      rcases hcases with h | h <;> rw [h] at hret <;> cases hret
    | some err0 =>
      obtain ⟨e, he⟩ := ApplyOperation_helm_failure env request sched operations operation err0
        hk hc hl hn hr
      rw [he] at hret
      cases hret
      exact Or.inl ⟨hn, rfl⟩
  · by_cases hm : request.OperationName ∈ manifestOperations env
    · cases hr : (manifestsResult env request operation).2 with
      | none =>
        obtain ⟨e, he⟩ := ApplyOperation_manifests_success env request sched operations
          operation hk hc hl hn hm hr
        obtain ⟨hcases, _⟩ := opProg_any_schedule env request operation request.K8sConfigs e
          (manifestsCall request operation) (manifestsCall_isDispatch request operation) sched
        rw [he] at hret
        rcases hcases with h | h <;> rw [h] at hret <;> cases hret
      | some err0 =>
        obtain ⟨e, he⟩ := ApplyOperation_manifests_failure env request sched operations
          operation err0 hk hc hl hn hm hr
        rw [he] at hret
        cases hret
        exact Or.inr (Or.inl ⟨hn, hm, rfl⟩)
    · obtain ⟨e, he⟩ := ApplyOperation_default env request sched operations operation
        hk hc hl hn hm
      rw [he] at hret
      cases hret
      exact Or.inr (Or.inr ⟨hn, hm, rfl⟩)


/-- C6: when credential setup and catalog loading succeed and the operation name is not a key
of the catalog, `ApplyOperation` returns `adapter.ErrOpInvalid` under every schedule, having
emitted exactly one failure event and no informational event, and having called neither the
chart installer nor the manifest-apply routine nor started any per-target task. -/
theorem ApplyOperation_unknown_operation (env : Env) (request : OperationRequest)
    (sched : List Nat) (operations : List (String × Operation))
    (hk : env.CreateKubeconfigs request.K8sConfigs = none)
    (hc : env.GetObject = Except.ok operations)
    (hl : operations.lookup request.OperationName = none) :
    (ApplyOperation env request sched).ret = some (some env.ErrOpInvalid)
    ∧ (ApplyOperation env request sched).trace.countP Effect.isErr = 1
    ∧ (ApplyOperation env request sched).trace.countP Effect.isInfo = 0
    ∧ (ApplyOperation env request sched).trace.countP Effect.isHelm = 0
    ∧ (ApplyOperation env request sched).trace.countP Effect.isManifests = 0
    ∧ (ApplyOperation env request sched).trace.countP Effect.isGoroutine = 0 := by
  obtain ⟨e, he⟩ := ApplyOperation_unknown env request sched operations hk hc hl
  rw [he]
  exact ⟨rfl, rfl, rfl, rfl, rfl, rfl⟩

/-- Witness for C6: the operation `unknown` is not in the sample catalog. -/
theorem ApplyOperation_unknown_operation_witness :
    (ApplyOperation demoEnv unknownRequest [0, 1, 2]).ret = some (some demoEnv.ErrOpInvalid)
    ∧ (ApplyOperation demoEnv unknownRequest [0, 1, 2]).trace.countP Effect.isErr = 1
    ∧ (ApplyOperation demoEnv unknownRequest [0, 1, 2]).trace.countP Effect.isInfo = 0
    ∧ (ApplyOperation demoEnv unknownRequest [0, 1, 2]).trace.countP Effect.isHelm = 0
    ∧ (ApplyOperation demoEnv unknownRequest [0, 1, 2]).trace.countP Effect.isManifests = 0
    ∧ (ApplyOperation demoEnv unknownRequest [0, 1, 2]).trace.countP Effect.isGoroutine = 0 :=
  ApplyOperation_unknown_operation demoEnv unknownRequest [0, 1, 2] demoCatalog rfl rfl
    (by decide)

/-- C7: when credential setup and catalog loading succeed, the name resolves and its dispatch
branch (chart installer or manifest-apply routine) succeeds, then for all outcomes of client
construction and endpoint resolution and under every schedule long enough for all steps,
`ApplyOperation` returns no failure; its last effect is the informational event, the only one
of the call; before that event every target task was started, constructed its client and
signalled its end; and every failed endpoint resolution was reported by a failure event,
while the returned value stays `nil`. -/
theorem ApplyOperation_success (env : Env) (request : OperationRequest) (sched : List Nat)
    (operations : List (String × Operation)) (operation : Operation)
    (hk : env.CreateKubeconfigs request.K8sConfigs = none)
    (hc : env.GetObject = Except.ok operations)
    (hl : operations.lookup request.OperationName = some operation)
    (hd : (request.OperationName = env.ConsulOperation
            ∧ (helmResult env request operation).2 = none)
          ∨ (request.OperationName ≠ env.ConsulOperation
            ∧ request.OperationName ∈ manifestOperations env
            ∧ (manifestsResult env request operation).2 = none))
    (hs : request.K8sConfigs.length * (operation.Services.length + 4) + 1 ≤ sched.length) :
    (ApplyOperation env request sched).ret = some none
    ∧ ∃ pre e,
      (ApplyOperation env request sched).trace = pre ++ [Effect.StreamInfo e]
      ∧ pre.countP Effect.isInfo = 0
      ∧ pre.countP Effect.isGoroutine = request.K8sConfigs.length
      ∧ pre.countP Effect.isNew = request.K8sConfigs.length
      ∧ pre.countP Effect.isDone = request.K8sConfigs.length
      ∧ (∀ kClient svc ns err, Effect.GetServiceEndpoint kClient svc ns ∈ pre →
          env.GetServiceEndpoint kClient svc ns = Except.error err →
          ∃ e', Effect.StreamErr e' err ∈ pre) := by
  rcases hd with ⟨hn, hr⟩ | ⟨hn, hm, hr⟩
  · obtain ⟨e, he⟩ := ApplyOperation_helm_success env request sched operations operation
      hk hc hl hn hr
    obtain ⟨hret, pre, e', h1, h2, h3, h4, h5, _, h7⟩ :=
      opProg_complete env request operation request.K8sConfigs e (helmCall env request operation)
        (helmCall_isDispatch env request operation) sched hs
    rw [he]
    exact ⟨hret, pre, e', h1, h2, h3, h4, h5, h7⟩
  · obtain ⟨e, he⟩ := ApplyOperation_manifests_success env request sched operations operation
      hk hc hl hn hm hr
    obtain ⟨hret, pre, e', h1, h2, h3, h4, h5, _, h7⟩ :=
      opProg_complete env request operation request.K8sConfigs e
        (manifestsCall request operation) (manifestsCall_isDispatch request operation) sched hs
    rw [he]
    exact ⟨hret, pre, e', h1, h2, h3, h4, h5, h7⟩

/-- Witness for C7: the operation `httpbin` on the targets `bad` (no client) and `k2` (the
service `missing` has no endpoint) returns no failure under a schedule of thirteen steps. -/
theorem ApplyOperation_success_witness :
    (ApplyOperation demoEnv httpbinRequest [0, 1, 2, 3, 4, 5, 6, 7, 8, 9, 10, 11, 12]).ret
      = some none
    ∧ ∃ pre e,
      (ApplyOperation demoEnv httpbinRequest [0, 1, 2, 3, 4, 5, 6, 7, 8, 9, 10, 11, 12]).trace
        = pre ++ [Effect.StreamInfo e]
      ∧ pre.countP Effect.isInfo = 0
      ∧ pre.countP Effect.isGoroutine = httpbinRequest.K8sConfigs.length
      ∧ pre.countP Effect.isNew = httpbinRequest.K8sConfigs.length
      ∧ pre.countP Effect.isDone = httpbinRequest.K8sConfigs.length
      ∧ (∀ kClient svc ns err, Effect.GetServiceEndpoint kClient svc ns ∈ pre →
          demoEnv.GetServiceEndpoint kClient svc ns = Except.error err →
          ∃ e', Effect.StreamErr e' err ∈ pre) :=
  ApplyOperation_success demoEnv httpbinRequest [0, 1, 2, 3, 4, 5, 6, 7, 8, 9, 10, 11, 12]
    demoCatalog ⟨1, "HTTPbin", ["httpbin", "missing"], []⟩ rfl rfl (by decide)
    (Or.inr ⟨by decide, by decide, rfl⟩) (by decide)

/-- C8 (as amended): for a request whose operation name resolves in the catalog,
`ApplyOperation` dispatches on the operation name, not on a category of the descriptor. If the
name is `config.ConsulOperation` the only dispatch call is the chart installer; if it is one of
the five manifest operation names the only dispatch call is the manifest-apply routine; for
any other name no dispatch call is made, no target task is started and `adapter.ErrOpInvalid`
is returned after one failure event. A returned failure is the failure of the chart
installer, the failure of the manifest-apply routine, or `adapter.ErrOpInvalid` for a name
outside the six. -/
theorem ApplyOperation_dispatch (env : Env) (request : OperationRequest) (sched : List Nat)
    (operations : List (String × Operation)) (operation : Operation)
    (hk : env.CreateKubeconfigs request.K8sConfigs = none)
    (hc : env.GetObject = Except.ok operations)
    (hl : operations.lookup request.OperationName = some operation) :
    (request.OperationName = env.ConsulOperation →
      (ApplyOperation env request sched).trace.filter Effect.isDispatch
        = [helmCall env request operation])
    ∧ (request.OperationName ≠ env.ConsulOperation →
        request.OperationName ∈ manifestOperations env →
        (ApplyOperation env request sched).trace.filter Effect.isDispatch
          = [manifestsCall request operation])
    ∧ (request.OperationName ≠ env.ConsulOperation →
        request.OperationName ∉ manifestOperations env →
        (ApplyOperation env request sched).trace.filter Effect.isDispatch = []
        ∧ (ApplyOperation env request sched).trace.countP Effect.isGoroutine = 0
        ∧ (ApplyOperation env request sched).trace.countP Effect.isErr = 1
        ∧ (ApplyOperation env request sched).ret = some (some env.ErrOpInvalid))
    ∧ (∀ err, (ApplyOperation env request sched).ret = some (some err) →
        (request.OperationName = env.ConsulOperation
          ∧ (helmResult env request operation).2 = some err)
        ∨ (request.OperationName ≠ env.ConsulOperation
          ∧ request.OperationName ∈ manifestOperations env
          ∧ (manifestsResult env request operation).2 = some err)
        ∨ (request.OperationName ≠ env.ConsulOperation
          ∧ request.OperationName ∉ manifestOperations env
          ∧ err = env.ErrOpInvalid)) := by
  by_cases hn : request.OperationName = env.ConsulOperation
  · cases hr : (helmResult env request operation).2 with
    | none =>
      obtain ⟨e, he⟩ := ApplyOperation_helm_success env request sched operations operation
        hk hc hl hn hr
      obtain ⟨hret, hdis⟩ := opProg_any_schedule env request operation request.K8sConfigs e
        (helmCall env request operation) (helmCall_isDispatch env request operation) sched
      rw [he]
      refine ⟨fun _ => hdis, fun h => absurd hn h, fun h => absurd hn h, ?_⟩
      intro err herr
      rcases hret with h | h <;> rw [h] at herr <;> cases herr
    | some err0 =>
      obtain ⟨e, he⟩ := ApplyOperation_helm_failure env request sched operations operation err0
        hk hc hl hn hr
      rw [he]
      refine ⟨fun _ => rfl, fun h => absurd hn h, fun h => absurd hn h, ?_⟩
      intro err herr
      cases herr
      exact Or.inl ⟨hn, rfl⟩
  · by_cases hm : request.OperationName ∈ manifestOperations env
    · cases hr : (manifestsResult env request operation).2 with
      | none =>
        obtain ⟨e, he⟩ := ApplyOperation_manifests_success env request sched operations
          operation hk hc hl hn hm hr
        obtain ⟨hret, hdis⟩ := opProg_any_schedule env request operation request.K8sConfigs e
          (manifestsCall request operation) (manifestsCall_isDispatch request operation) sched
        rw [he]
        refine ⟨fun h => absurd h hn, fun _ _ => hdis, fun _ h => absurd hm h, ?_⟩
        intro err herr
        rcases hret with h | h <;> rw [h] at herr <;> cases herr
      | some err0 =>
        obtain ⟨e, he⟩ := ApplyOperation_manifests_failure env request sched operations
          operation err0 hk hc hl hn hm hr
        rw [he]
        refine ⟨fun h => absurd h hn, fun _ _ => rfl, fun _ h => absurd hm h, ?_⟩
        intro err herr
        cases herr
        exact Or.inr (Or.inl ⟨hn, hm, rfl⟩)
    · obtain ⟨e, he⟩ := ApplyOperation_default env request sched operations operation
        hk hc hl hn hm
      rw [he]
      refine ⟨fun h => absurd h hn, fun _ h => absurd h hm,
        fun _ _ => ⟨rfl, rfl, rfl, rfl⟩, ?_⟩
      intro err herr
      cases herr
      exact Or.inr (Or.inr ⟨hn, hm, rfl⟩)

/-- Counterexample for C8: the name `legacy` resolves in the sample catalog, yet under the
schedule shown `ApplyOperation` calls neither the chart installer nor the manifest-apply
routine and returns `adapter.ErrOpInvalid`, although the name is known and neither routine
has failed. -/
theorem ApplyOperation_resolved_name_without_path :
    demoEnv.GetObject = Except.ok demoCatalog
    ∧ demoCatalog.lookup legacyRequest.OperationName = some ⟨1, "Legacy", [], []⟩
    ∧ (ApplyOperation demoEnv legacyRequest [0, 1, 2]).trace.countP Effect.isHelm = 0
    ∧ (ApplyOperation demoEnv legacyRequest [0, 1, 2]).trace.countP Effect.isManifests = 0
    ∧ (ApplyOperation demoEnv legacyRequest [0, 1, 2]).ret
        = some (some ⟨ErrKind.opInvalid, "Invalid operation"⟩) := by
  refine ⟨rfl, ?_, ?_, ?_, ?_⟩ <;> decide

/-- Witness for C8: the name `httpbin` is dispatched to the manifest-apply routine alone, and
the resolved name `legacy` to neither routine. -/
theorem ApplyOperation_dispatch_witness :
    (ApplyOperation demoEnv httpbinRequest [0, 1, 2]).trace.filter Effect.isDispatch
      = [manifestsCall httpbinRequest ⟨1, "HTTPbin", ["httpbin", "missing"], []⟩]
    ∧ ((ApplyOperation demoEnv legacyRequest [0, 1, 2]).trace.filter Effect.isDispatch = []
      ∧ (ApplyOperation demoEnv legacyRequest [0, 1, 2]).trace.countP Effect.isGoroutine = 0
      ∧ (ApplyOperation demoEnv legacyRequest [0, 1, 2]).trace.countP Effect.isErr = 1
      ∧ (ApplyOperation demoEnv legacyRequest [0, 1, 2]).ret
          = some (some demoEnv.ErrOpInvalid)) :=
  ⟨(ApplyOperation_dispatch demoEnv httpbinRequest [0, 1, 2] demoCatalog
      ⟨1, "HTTPbin", ["httpbin", "missing"], []⟩ rfl rfl (by decide)).2.1
      (by decide) (by decide),
    (ApplyOperation_dispatch demoEnv legacyRequest [0, 1, 2] demoCatalog
      ⟨1, "Legacy", [], []⟩ rfl rfl (by decide)).2.2.1 (by decide) (by decide)⟩

/-! ## The component loop -/

theorem componentEvent_isInfo (env : Env) (stat1 stat2 : String) (i : Nat) (comp : Component)
    (out : String × Option GoError) :
    (componentEvent env stat1 stat2 i comp out).isInfo = out.2.isNone
    ∧ (componentEvent env stat1 stat2 i comp out).isErr = out.2.isSome
    ∧ (componentEvent env stat1 stat2 i comp out).failure = out.2
    ∧ (componentEvent env stat1 stat2 i comp out).invoked = none := by
  unfold componentEvent
  rcases out with ⟨msg, _ | err⟩
  · cases compFuncMap.lookup comp.Spec.Type_ <;> exact ⟨rfl, rfl, rfl, rfl⟩
  · exact ⟨rfl, rfl, rfl, rfl⟩

/-- Closed form of the loop of `HandleComponents` when every handler call returns: the
effects are the invocation and the event of each component in order, the message joins the
messages of the successful components and the failure merges the failures in order. -/
theorem componentsLoop_eq (env : Env) (scheds : Nat → List Nat) (isDel : Bool)
    (kubeconfigs : List String) (stat1 stat2 : String) :
    ∀ (comps : List Component) (i : Nat) (errs : List GoError) (msgs : List String)
      (trace : List Effect) (outs : List (String × Option GoError)),
      (comps.enumFrom i).map (fun p => callHandler env scheds isDel kubeconfigs p.1 p.2)
        = outs.map some →
      componentsLoop env scheds isDel kubeconfigs stat1 stat2 i comps errs msgs trace
        = ⟨trace ++ componentEffects env stat1 stat2 i comps outs,
            some (mergeMsgs (msgs ++ okMsgs outs), mergeErrors (errs ++ failures outs))⟩ := by
  intro comps
  induction comps with
  | nil =>
    intro i errs msgs trace outs h
    cases outs with
    | cons o os => simp at h
    | nil =>
      simp only [componentsLoop, componentEffects, okMsgs, failures, List.filter_nil,
        List.map_nil, List.filterMap_nil, List.append_nil]
      cases mergeErrors errs <;> rfl
  | cons comp rest ih =>
    intro i errs msgs trace outs h
    cases outs with
    | nil => simp at h
    | cons o os =>
      simp only [List.enumFrom_cons, List.map_cons, List.cons.injEq] at h
      obtain ⟨ho, hrest⟩ := h
      have ih' := fun errs msgs trace => ih (i + 1) errs msgs trace os hrest
      unfold callHandler at ho
      rcases o with ⟨msg, _ | err⟩
      · cases hlk : compFuncMap.lookup comp.Spec.Type_ with
        | none =>
          rw [hlk] at ho
          simp only at ho
          rw [componentsLoop]
          simp only [hlk, ho]
          rw [ih']
          simp [componentEffects, componentEvent, hlk, okMsgs, failures]
        | some fnc =>
          rw [hlk] at ho
          simp only at ho
          rw [componentsLoop]
          simp only [hlk, ho]
          rw [ih']
          simp [componentEffects, componentEvent, hlk, okMsgs, failures]
      · cases hlk : compFuncMap.lookup comp.Spec.Type_ with
        | none =>
          rw [hlk] at ho
          simp only at ho
          rw [componentsLoop]
          simp only [hlk, ho]
          rw [ih']
          simp [componentEffects, componentEvent, okMsgs, failures]
        | some fnc =>
          rw [hlk] at ho
          simp only at ho
          rw [componentsLoop]
          simp only [hlk, ho]
          rw [ih']
          simp [componentEffects, componentEvent, okMsgs, failures]

theorem componentEffects_props (env : Env) (stat1 stat2 : String) :
    ∀ (comps : List Component) (i : Nat) (outs : List (String × Option GoError)),
      comps.length = outs.length →
      (componentEffects env stat1 stat2 i comps outs).filterMap Effect.invoked = comps
      ∧ (componentEffects env stat1 stat2 i comps outs).filter Effect.isEvent
          = componentEvents env stat1 stat2 i comps outs
      ∧ (componentEffects env stat1 stat2 i comps outs).countP Effect.isInfo
          = outs.countP (fun o => o.2.isNone)
      ∧ (componentEffects env stat1 stat2 i comps outs).countP Effect.isErr
          = outs.countP (fun o => o.2.isSome)
      ∧ (componentEffects env stat1 stat2 i comps outs).filterMap Effect.failure
          = failures outs := by
  intro comps
  induction comps with
  | nil =>
    intro i outs h
    cases outs with
    | nil => exact ⟨rfl, rfl, rfl, rfl, rfl⟩
    | cons o os => simp at h
  | cons comp rest ih =>
    intro i outs h
    cases outs with
    | nil => simp at h
    | cons o os =>
      obtain ⟨h1, h2, h3, h4, h5⟩ := ih (i + 1) os (by simpa using h)
      obtain ⟨e1, e2, e3, e4⟩ := componentEvent_isInfo env stat1 stat2 i comp o
      have hev : (componentEvent env stat1 stat2 i comp o).isEvent = true := by
        unfold Effect.isEvent
        rw [e1, e2]
        cases o.2 <;> rfl
      have heq : componentEffects env stat1 stat2 i (comp :: rest) (o :: os)
          = Effect.invokeHandler comp :: componentEvent env stat1 stat2 i comp o
            :: componentEffects env stat1 stat2 (i + 1) rest os := rfl
      have hinv : Effect.invoked (Effect.invokeHandler comp) = some comp := rfl
      have hnev : ¬ (Effect.isEvent (Effect.invokeHandler comp) = true) := by
        simp [Effect.isEvent, Effect.isInfo, Effect.isErr]
      have hni : Effect.isInfo (Effect.invokeHandler comp) = false := rfl
      have hne : Effect.isErr (Effect.invokeHandler comp) = false := rfl
      have hnf : Effect.failure (Effect.invokeHandler comp) = none := rfl
      rw [heq]
      refine ⟨?_, ?_, ?_, ?_, ?_⟩
      · rw [List.filterMap_cons_some hinv, List.filterMap_cons_none e4, h1]
      · rw [List.filter_cons_of_neg hnev, List.filter_cons_of_pos hev, h2]
        rfl
      · rw [List.countP_cons, List.countP_cons, h3, e1, hni, List.countP_cons]
        simp
      · rw [List.countP_cons, List.countP_cons, h4, e2, hne, List.countP_cons]
        simp
      · rw [List.filterMap_cons_none hnf]
        unfold failures
        cases ho : o.2 with
        | none =>
          rw [List.filterMap_cons_none (e3.trans ho), List.filterMap_cons_none ho]
          exact h5
        | some err =>
          rw [List.filterMap_cons_some (e3.trans ho), List.filterMap_cons_some ho]
          exact congrArg _ h5

theorem componentEvents_props (env : Env) (stat1 stat2 : String) :
    ∀ (comps : List Component) (i : Nat) (outs : List (String × Option GoError)),
      comps.length = outs.length →
      (componentEvents env stat1 stat2 i comps outs).length = comps.length
      ∧ List.Forall₂
          (fun ev out => ev.isInfo = out.2.isNone ∧ ev.isErr = out.2.isSome
            ∧ ev.failure = out.2)
          (componentEvents env stat1 stat2 i comps outs) outs := by
  intro comps
  induction comps with
  | nil =>
    intro i outs h
    cases outs with
    | nil => exact ⟨rfl, List.Forall₂.nil⟩
    | cons o os => simp at h
  | cons comp rest ih =>
    intro i outs h
    cases outs with
    | nil => simp at h
    | cons o os =>
      obtain ⟨h1, h2⟩ := ih (i + 1) os (by simpa using h)
      obtain ⟨e1, e2, e3, _⟩ := componentEvent_isInfo env stat1 stat2 i comp o
      exact ⟨by simp [componentEvents, h1], List.Forall₂.cons ⟨e1, e2, e3⟩ h2⟩

theorem outcomes_length (env : Env) (scheds : Nat → List Nat) (isDel : Bool)
    (kubeconfigs : List String) (comps : List Component) (i : Nat)
    (outs : List (String × Option GoError))
    (h : (comps.enumFrom i).map (fun p => callHandler env scheds isDel kubeconfigs p.1 p.2)
      = outs.map some) : comps.length = outs.length := by
  have := congrArg List.length h
  simpa using this

theorem HandleComponents_eq (env : Env) (scheds : Nat → List Nat) (comps : List Component)
    (isDel : Bool) (kubeconfigs : List String) (outs : List (String × Option GoError))
    (h : (comps.enumFrom 0).map (fun p => callHandler env scheds isDel kubeconfigs p.1 p.2)
      = outs.map some) :
    HandleComponents env scheds comps isDel kubeconfigs
      = ⟨componentEffects env (statusDoing isDel) (statusDone isDel) 0 comps outs,
          some (mergeMsgs (okMsgs outs), mergeErrors (failures outs))⟩ := by
  have := componentsLoop_eq env scheds isDel kubeconfigs (statusDoing isDel) (statusDone isDel)
    comps 0 [] [] [] outs h
  simpa [HandleComponents, statusDoing, statusDone] using this

/-- The loop of `HandleComponents` under handlers that return: when the handler call of every
component returns, with outcomes `outs` in component order, `HandleComponents` invokes the handler of every component in order whatever failed
before, and returns the newline join of the messages of exactly the outcomes without failure,
in order, together with `mergeErrors` of the failures in order; the returned failure is `nil`
if and only if no component failed. -/
theorem HandleComponents_result (env : Env) (scheds : Nat → List Nat) (comps : List Component)
    (isDel : Bool) (kubeconfigs : List String) (outs : List (String × Option GoError))
    (h : (comps.enumFrom 0).map (fun p => callHandler env scheds isDel kubeconfigs p.1 p.2)
      = outs.map some) :
    (HandleComponents env scheds comps isDel kubeconfigs).ret
      = some (String.intercalate "\n" ((outs.filter (fun o => o.2.isNone)).map Prod.fst),
          mergeErrors (outs.filterMap Prod.snd))
    ∧ (mergeErrors (outs.filterMap Prod.snd) = none ↔ ∀ o ∈ outs, o.2 = none)
    ∧ (HandleComponents env scheds comps isDel kubeconfigs).trace.filterMap Effect.invoked
        = comps := by
  rw [HandleComponents_eq env scheds comps isDel kubeconfigs outs h]
  refine ⟨rfl, ?_, ?_⟩
  · rw [mergeErrors_eq_none_iff]
    constructor
    · intro hnil o ho
      cases ho2 : o.2 with
      | none => rfl
      | some err =>
        have : err ∈ outs.filterMap Prod.snd := List.mem_filterMap.mpr ⟨o, ho, ho2⟩
        rw [hnil] at this
        cases this
    · intro hall
      apply List.eq_nil_iff_forall_not_mem.mpr
      intro err herr
      obtain ⟨o, ho, ho2⟩ := List.mem_filterMap.mp herr
      rw [hall o ho] at ho2
      cases ho2
  · exact (componentEffects_props env _ _ comps 0 outs
      (outcomes_length env scheds isDel kubeconfigs comps 0 outs h)).1

/-- The events of `HandleComponents` under handlers that return: when the handler call of
every component returns, with outcomes `outs` in component order, the progress events of `HandleComponents` are exactly one per component in component
order, an informational event when the handler returned no failure and a failure event
carrying the failure otherwise; so the informational events are as many as the components
without failure and the failure events as many as the failed components. -/
theorem HandleComponents_events (env : Env) (scheds : Nat → List Nat) (comps : List Component)
    (isDel : Bool) (kubeconfigs : List String) (outs : List (String × Option GoError))
    (h : (comps.enumFrom 0).map (fun p => callHandler env scheds isDel kubeconfigs p.1 p.2)
      = outs.map some) :
    (HandleComponents env scheds comps isDel kubeconfigs).trace.filter Effect.isEvent
      = componentEvents env (statusDoing isDel) (statusDone isDel) 0 comps outs
    ∧ ((HandleComponents env scheds comps isDel kubeconfigs).trace.filter Effect.isEvent).length
      = comps.length
    ∧ List.Forall₂
        (fun ev out => ev.isInfo = out.2.isNone ∧ ev.isErr = out.2.isSome ∧ ev.failure = out.2)
        ((HandleComponents env scheds comps isDel kubeconfigs).trace.filter Effect.isEvent) outs
    ∧ (HandleComponents env scheds comps isDel kubeconfigs).trace.countP Effect.isInfo
      = outs.countP (fun o => o.2.isNone)
    ∧ (HandleComponents env scheds comps isDel kubeconfigs).trace.countP Effect.isErr
      = outs.countP (fun o => o.2.isSome) := by
  have hlen := outcomes_length env scheds isDel kubeconfigs comps 0 outs h
  rw [HandleComponents_eq env scheds comps isDel kubeconfigs outs h]
  obtain ⟨_, h2, h3, h4, _⟩ :=
    componentEffects_props env (statusDoing isDel) (statusDone isDel) comps 0 outs hlen
  obtain ⟨h5, h6⟩ :=
    componentEvents_props env (statusDoing isDel) (statusDone isDel) comps 0 outs hlen
  simp only [h2]
  exact ⟨trivial, h5, h6, h3, h4⟩

/-- An instance of the loop under handlers that return: of the components `bare`, `mesh`,
`bare` the first and the last fail to
resolve and the one between them is installed; all three handlers are invoked. -/
theorem HandleComponents_result_instance :
    (HandleComponents demoEnv (fun _ => [0, 1, 2]) [bare, mesh, bare] false ["k1"]).ret
      = some (String.intercalate "\n" ((demoOuts.filter (fun o => o.2.isNone)).map Prod.fst),
          mergeErrors (demoOuts.filterMap Prod.snd))
    ∧ (mergeErrors (demoOuts.filterMap Prod.snd) = none ↔ ∀ o ∈ demoOuts, o.2 = none)
    ∧ (HandleComponents demoEnv (fun _ => [0, 1, 2]) [bare, mesh, bare] false
        ["k1"]).trace.filterMap Effect.invoked = [bare, mesh, bare] :=
  HandleComponents_result demoEnv (fun _ => [0, 1, 2]) [bare, mesh, bare] false ["k1"] demoOuts
    (by decide)

/-- An instance of the events under handlers that return: the components `bare`, `mesh`,
`bare` yield a failure event, an
informational event and a failure event, in this order. -/
theorem HandleComponents_events_instance :
    (HandleComponents demoEnv (fun _ => [0, 1, 2]) [bare, mesh, bare] false
        ["k1"]).trace.filter Effect.isEvent
      = componentEvents demoEnv (statusDoing false) (statusDone false) 0 [bare, mesh, bare]
          demoOuts
    ∧ ((HandleComponents demoEnv (fun _ => [0, 1, 2]) [bare, mesh, bare] false
        ["k1"]).trace.filter Effect.isEvent).length = [bare, mesh, bare].length
    ∧ List.Forall₂
        (fun ev out => ev.isInfo = out.2.isNone ∧ ev.isErr = out.2.isSome ∧ ev.failure = out.2)
        ((HandleComponents demoEnv (fun _ => [0, 1, 2]) [bare, mesh, bare] false
          ["k1"]).trace.filter Effect.isEvent) demoOuts
    ∧ (HandleComponents demoEnv (fun _ => [0, 1, 2]) [bare, mesh, bare] false
        ["k1"]).trace.countP Effect.isInfo = demoOuts.countP (fun o => o.2.isNone)
    ∧ (HandleComponents demoEnv (fun _ => [0, 1, 2]) [bare, mesh, bare] false
        ["k1"]).trace.countP Effect.isErr = demoOuts.countP (fun o => o.2.isSome) :=
  HandleComponents_events demoEnv (fun _ => [0, 1, 2]) [bare, mesh, bare] false ["k1"] demoOuts
    (by decide)

/-! ## The component loop behind a fallback handler that blocks -/

/-- A component without registered handler whose apiVersion and kind resolve and whose
artifact serialises blocks `HandleComponents` as soon as there is one target: its handler is
invoked and never returns, so no event is emitted and no later component is reached. -/
theorem HandleComponents_blocks (env : Env) (scheds : Nat → List Nat) (comp : Component)
    (rest : List Component) (isDel : Bool) (k : String) (ks : List String) (yamlByt : String)
    (hl : compFuncMap.lookup comp.Spec.Type_ = none)
    (ha : getAPIVersionFromComponent comp ≠ "")
    (hk : getKindFromComponent comp ≠ "")
    (hm : env.Marshal ⟨getAPIVersionFromComponent comp, getKindFromComponent comp, comp.Name,
      comp.Annotations, comp.Labels, comp.Spec.Settings⟩ = Except.ok yamlByt) :
    HandleComponents env scheds (comp :: rest) isDel (k :: ks)
      = ⟨[Effect.invokeHandler comp], none⟩ := by
  have hret : (handleConsulCoreComponents env (scheds 0) comp isDel "" "" (k :: ks)).ret
      = none := by
    rw [handleConsulCoreComponents_fanout env (scheds 0) comp isDel "" "" (k :: ks) yamlByt
      (by simpa using ha) (by simpa using hk) (by simpa using hm)]
    exact coreProg_never_returns _ _ _ _ _ _ _ _
  unfold HandleComponents
  simp only
  rw [componentsLoop]
  simp only [hl, hret, List.nil_append]

/-- C4 (fails on the code): for the components `redis` and `bare` and one target,
`HandleComponents` invokes the handler of `redis` and then never returns, under every
schedule: the fan-out of `handleConsulCoreComponents` blocks on `wg.Wait()`. No message and
no failure is returned and the component `bare` is never processed. The same holds in every
environment for every list that starts with a generic component that resolves and
serialises, with at least one target. -/
theorem HandleComponents_hangs_in_fallback :
    (∀ scheds : Nat → List Nat,
      HandleComponents demoEnv scheds [redis, bare] false ["k1"]
        = ⟨[Effect.invokeHandler redis], none⟩)
    ∧ (∀ scheds : Nat → List Nat,
      (HandleComponents demoEnv scheds [redis, bare] false ["k1"]).trace.filterMap
        Effect.invoked = [redis])
    ∧ (∀ (env : Env) (scheds : Nat → List Nat) (comp : Component) (rest : List Component)
        (isDel : Bool) (k : String) (ks : List String) (yamlByt : String),
        compFuncMap.lookup comp.Spec.Type_ = none →
        getAPIVersionFromComponent comp ≠ "" →
        getKindFromComponent comp ≠ "" →
        env.Marshal ⟨getAPIVersionFromComponent comp, getKindFromComponent comp, comp.Name,
          comp.Annotations, comp.Labels, comp.Spec.Settings⟩ = Except.ok yamlByt →
        (HandleComponents env scheds (comp :: rest) isDel (k :: ks)).ret = none) := by
  have h0 : ∀ scheds : Nat → List Nat,
      HandleComponents demoEnv scheds [redis, bare] false ["k1"]
        = ⟨[Effect.invokeHandler redis], none⟩ := fun scheds =>
    HandleComponents_blocks demoEnv scheds redis [bare] false "k1" [] "v1/Pod/redis"
      rfl (by decide) (by decide) rfl
  refine ⟨h0, ?_, ?_⟩
  · intro scheds
    rw [h0 scheds]
    rfl
  · intro env scheds comp rest isDel k ks yamlByt hl ha hk hm
    rw [HandleComponents_blocks env scheds comp rest isDel k ks yamlByt hl ha hk hm]

/-- C5 (fails on the code): for the single component `redis` of the scenario of the spec and
one target, `HandleComponents` emits no progress event at all under every schedule, neither
an informational event nor a failure event, as the handler of `redis` never returns. -/
theorem HandleComponents_emits_nothing_in_fallback :
    (∀ scheds : Nat → List Nat,
      (HandleComponents demoEnv scheds [redis] false ["k1"]).trace.filter Effect.isEvent = [])
    ∧ (∀ scheds : Nat → List Nat,
      (HandleComponents demoEnv scheds [redis] false ["k1"]).trace.countP Effect.isInfo = 0)
    ∧ (∀ scheds : Nat → List Nat,
      (HandleComponents demoEnv scheds [redis] false ["k1"]).trace.countP Effect.isErr = 0)
    ∧ (∀ scheds : Nat → List Nat,
      (HandleComponents demoEnv scheds [redis] false ["k1"]).ret = none) := by
  have h0 : ∀ scheds : Nat → List Nat,
      HandleComponents demoEnv scheds [redis] false ["k1"]
        = ⟨[Effect.invokeHandler redis], none⟩ := fun scheds =>
    HandleComponents_blocks demoEnv scheds redis [] false "k1" [] "v1/Pod/redis"
      rfl (by decide) (by decide) rfl
  refine ⟨?_, ?_, ?_, ?_⟩ <;> intro scheds <;> rw [h0 scheds] <;> rfl

/-- The handler `handleComponentConsulMesh` reads the version from `comp.Spec.Version` alone:
with an empty `Spec.Version` it fails, whatever the settings hold. -/
theorem handleComponentConsulMesh_empty_version (env : Env) (i : Nat) (comp : Component)
    (isDelete : Bool) (kubeconfigs : List String) (hv : comp.Spec.Version = "") :
    handleComponentConsulMesh env i comp isDelete kubeconfigs
      = some ("", some ⟨ErrKind.fmtError,
          "empty version passed for service mesh installation"⟩) := by
  unfold handleComponentConsulMesh
  simp only [hv, if_true]

/-- An instance: the version `1.8.2` in the settings of a `ConsulMesh` component with empty
`Spec.Version` is not used. -/
theorem handleComponentConsulMesh_version_in_settings :
    meshVersionInSettings.Spec.Settings = [("version", "1.8.2")]
    ∧ handleComponentConsulMesh demoEnv 0 meshVersionInSettings false ["k1"]
      = some ("", some ⟨ErrKind.fmtError,
          "empty version passed for service mesh installation"⟩) :=
  ⟨rfl, handleComponentConsulMesh_empty_version demoEnv 0 meshVersionInSettings false ["k1"]
    rfl⟩

/-! ## Returned failures and emitted events -/

/-- In the loop of `HandleComponents` the slice `errs` always holds the failures carried by
the failure events emitted so far, so a returned failure merges exactly those. -/
theorem componentsLoop_failures (env : Env) (scheds : Nat → List Nat) (isDel : Bool)
    (kubeconfigs : List String) (stat1 stat2 : String) :
    ∀ (comps : List Component) (i : Nat) (errs : List GoError) (msgs : List String)
      (trace : List Effect), trace.filterMap Effect.failure = errs →
      ∀ (msg : String) (failure : Option GoError),
        (componentsLoop env scheds isDel kubeconfigs stat1 stat2 i comps errs msgs trace).ret
          = some (msg, failure) →
        failure = mergeErrors
          ((componentsLoop env scheds isDel kubeconfigs stat1 stat2 i comps errs msgs
            trace).trace.filterMap Effect.failure) := by
  intro comps
  induction comps with
  | nil =>
    intro i errs msgs trace htr msg failure hret
    rw [componentsLoop] at hret ⊢
    cases hm : mergeErrors errs with
    | none =>
      rw [hm] at hret
      simp only [Option.some.injEq, Prod.mk.injEq] at hret
      simp only [htr, hm]
      exact hret.2.symm
    | some err =>
      rw [hm] at hret
      simp only [Option.some.injEq, Prod.mk.injEq] at hret
      simp only [htr, hm]
      exact hret.2.symm
  | cons comp rest ih =>
    intro i errs msgs trace htr msg failure hret
    have hfail : ∀ (ee : EventsResponse) (err : GoError),
        (trace ++ [Effect.invokeHandler comp, Effect.StreamErr ee err]).filterMap Effect.failure
          = errs ++ [err] := by
      intro ee err
      rw [List.filterMap_append, htr]
      rfl
    have hinfo : ∀ ee : EventsResponse,
        (trace ++ [Effect.invokeHandler comp, Effect.StreamInfo ee]).filterMap Effect.failure
          = errs := by
      intro ee
      rw [List.filterMap_append, htr]
      exact List.append_nil _
    rw [componentsLoop] at hret ⊢
    cases hlk : compFuncMap.lookup comp.Spec.Type_ with
    | none =>
      simp only [hlk] at hret ⊢
      rcases hc : (handleConsulCoreComponents env (scheds i) comp isDel "" "" kubeconfigs).ret
        with _ | ⟨m, _ | err⟩
      · simp only [hc] at hret
        cases hret
      · simp only [hc] at hret ⊢
        exact ih _ _ _ _ (hinfo _) msg failure hret
      · simp only [hc] at hret ⊢
        exact ih _ _ _ _ (hfail _ err) msg failure hret
    | some fnc =>
      simp only [hlk] at hret ⊢
      rcases hc : fnc env i comp isDel kubeconfigs with _ | ⟨m, _ | err⟩
      · simp only [hc] at hret
        cases hret
      · simp only [hc] at hret ⊢
        exact ih _ _ _ _ (hinfo _) msg failure hret
      · simp only [hc] at hret ⊢
        exact ih _ _ _ _ (hfail _ err) msg failure hret

/-- A call of `HandleComponents` that returns has seen every handler call return. -/
theorem componentsLoop_returns (env : Env) (scheds : Nat → List Nat) (isDel : Bool)
    (kubeconfigs : List String) (stat1 stat2 : String) :
    ∀ (comps : List Component) (i : Nat) (errs : List GoError) (msgs : List String)
      (trace : List Effect) (r : String × Option GoError),
      (componentsLoop env scheds isDel kubeconfigs stat1 stat2 i comps errs msgs trace).ret
        = some r →
      ∃ outs : List (String × Option GoError),
        (comps.enumFrom i).map (fun p => callHandler env scheds isDel kubeconfigs p.1 p.2)
          = outs.map some := by
  intro comps
  induction comps with
  | nil => intro i errs msgs trace r _; exact ⟨[], rfl⟩
  | cons comp rest ih =>
    intro i errs msgs trace r hret
    rw [componentsLoop] at hret
    cases hlk : compFuncMap.lookup comp.Spec.Type_ with
    | none =>
      simp only [hlk] at hret
      rcases hc : (handleConsulCoreComponents env (scheds i) comp isDel "" "" kubeconfigs).ret
        with _ | ⟨m, _ | err⟩
      · simp only [hc] at hret
        cases hret
      · simp only [hc] at hret
        obtain ⟨outs, ho⟩ := ih _ _ _ _ r hret
        have hh : callHandler env scheds isDel kubeconfigs i comp = some (m, none) := by
          unfold callHandler
          rw [hlk]
          exact hc
        refine ⟨(m, none) :: outs, ?_⟩
        rw [List.enumFrom_cons, List.map_cons, List.map_cons, ho]
        show callHandler env scheds isDel kubeconfigs i comp :: _ = _
        rw [hh]
      · simp only [hc] at hret
        obtain ⟨outs, ho⟩ := ih _ _ _ _ r hret
        have hh : callHandler env scheds isDel kubeconfigs i comp = some (m, some err) := by
          unfold callHandler
          rw [hlk]
          exact hc
        refine ⟨(m, some err) :: outs, ?_⟩
        rw [List.enumFrom_cons, List.map_cons, List.map_cons, ho]
        show callHandler env scheds isDel kubeconfigs i comp :: _ = _
        rw [hh]
    | some fnc =>
      simp only [hlk] at hret
      rcases hc : fnc env i comp isDel kubeconfigs with _ | ⟨m, _ | err⟩
      · simp only [hc] at hret
        cases hret
      · simp only [hc] at hret
        obtain ⟨outs, ho⟩ := ih _ _ _ _ r hret
        have hh : callHandler env scheds isDel kubeconfigs i comp = some (m, none) := by
          unfold callHandler
          rw [hlk]
          exact hc
        refine ⟨(m, none) :: outs, ?_⟩
        rw [List.enumFrom_cons, List.map_cons, List.map_cons, ho]
        show callHandler env scheds isDel kubeconfigs i comp :: _ = _
        rw [hh]
      · simp only [hc] at hret
        obtain ⟨outs, ho⟩ := ih _ _ _ _ r hret
        have hh : callHandler env scheds isDel kubeconfigs i comp = some (m, some err) := by
          unfold callHandler
          rw [hlk]
          exact hc
        refine ⟨(m, some err) :: outs, ?_⟩
        rw [List.enumFrom_cons, List.map_cons, List.map_cons, ho]
        show callHandler env scheds isDel kubeconfigs i comp :: _ = _
        rw [hh]

theorem countP_failed_eq_length (outs : List (String × Option GoError)) :
    outs.countP (fun o => o.2.isSome) = (outs.filterMap Prod.snd).length := by
  induction outs with
  | nil => rfl
  | cons o os ih =>
    rcases o with ⟨m, _ | e⟩
    · have h : Prod.snd (m, (none : Option GoError)) = none := rfl
      rw [List.countP_cons, List.filterMap_cons_none h, ih]
      simp
    · have h : Prod.snd (m, some e) = some e := rfl
      rw [List.countP_cons, List.filterMap_cons_some h, ih]
      simp

/-- A failure of credential setup is returned by `ApplyOperation` at once, with no effect. -/
theorem ApplyOperation_credentials_failure (env : Env) (request : OperationRequest)
    (sched : List Nat) (err : GoError)
    (hk : env.CreateKubeconfigs request.K8sConfigs = some err) :
    ApplyOperation env request sched = ⟨[], some (some err)⟩ := by
  unfold ApplyOperation
  simp only [hk]

/-- A failure of catalog loading is returned by `ApplyOperation` at once, with no effect. -/
theorem ApplyOperation_catalog_failure (env : Env) (request : OperationRequest)
    (sched : List Nat) (err : GoError)
    (hk : env.CreateKubeconfigs request.K8sConfigs = none)
    (hc : env.GetObject = Except.error err) :
    ApplyOperation env request sched = ⟨[], some (some err)⟩ := by
  unfold ApplyOperation
  simp only [hk, hc]

/-- C3 (as amended): a failure that `ApplyOperation` returns after credential setup and
catalog loading have succeeded was emitted before, as a failure event carrying that very
failure. A failure of credential setup, and a failure of catalog loading after credential
setup has succeeded, is returned with no effect at all, so with no event. When
`HandleComponents` returns a failure, every handler call has returned, at least one of them
with a failure, and the failures carried by the failure events emitted before the return are
exactly the handler failures, in component order, one failure event per failed component. -/
theorem returned_failure_was_emitted (env : Env) :
    (∀ (request : OperationRequest) (sched : List Nat) (operations : List (String × Operation))
        (err : GoError),
        env.CreateKubeconfigs request.K8sConfigs = none →
        env.GetObject = Except.ok operations →
        (ApplyOperation env request sched).ret = some (some err) →
        ∃ e, Effect.StreamErr e err ∈ (ApplyOperation env request sched).trace)
    ∧ (∀ (request : OperationRequest) (sched : List Nat) (err : GoError),
        env.CreateKubeconfigs request.K8sConfigs = some err →
        ApplyOperation env request sched = ⟨[], some (some err)⟩)
    ∧ (∀ (request : OperationRequest) (sched : List Nat) (err : GoError),
        env.CreateKubeconfigs request.K8sConfigs = none →
        env.GetObject = Except.error err →
        ApplyOperation env request sched = ⟨[], some (some err)⟩)
    ∧ (∀ (scheds : Nat → List Nat) (comps : List Component) (isDel : Bool)
        (kubeconfigs : List String) (msg : String) (err : GoError),
        (HandleComponents env scheds comps isDel kubeconfigs).ret = some (msg, some err) →
        ∃ outs : List (String × Option GoError),
          (comps.enumFrom 0).map (fun p => callHandler env scheds isDel kubeconfigs p.1 p.2)
            = outs.map some
          ∧ (HandleComponents env scheds comps isDel kubeconfigs).trace.filterMap Effect.failure
            = outs.filterMap Prod.snd
          ∧ 0 < (outs.filterMap Prod.snd).length
          ∧ (HandleComponents env scheds comps isDel kubeconfigs).trace.countP Effect.isErr
            = (outs.filterMap Prod.snd).length) := by
  refine ⟨?_, ?_, ?_, ?_⟩
  · intro request sched operations err hk hc hret
    cases hl : operations.lookup request.OperationName with
    | none =>
      obtain ⟨e, he⟩ := ApplyOperation_unknown env request sched operations hk hc hl
      rw [he] at hret ⊢
      cases hret
      exact ⟨e, List.mem_singleton.mpr rfl⟩
    | some operation =>
      rcases ApplyOperation_failure_origin env request sched operations operation hk hc hl
        err hret with ⟨hn, hr⟩ | ⟨hn, hm, hr⟩ | ⟨hn, hm, hr⟩
      · obtain ⟨e, he⟩ := ApplyOperation_helm_failure env request sched operations operation
          err hk hc hl hn hr
        rw [he]
        exact ⟨e, by simp⟩
      · obtain ⟨e, he⟩ := ApplyOperation_manifests_failure env request sched operations
          operation err hk hc hl hn hm hr
        rw [he]
        exact ⟨e, by simp⟩
      · obtain ⟨e, he⟩ := ApplyOperation_default env request sched operations operation
          hk hc hl hn hm
        rw [he, hr]
        exact ⟨e, List.mem_singleton.mpr rfl⟩
  · intro request sched err hk
    exact ApplyOperation_credentials_failure env request sched err hk
  · intro request sched err hk hc
    exact ApplyOperation_catalog_failure env request sched err hk hc
  · intro scheds comps isDel kubeconfigs msg err hret
    obtain ⟨outs, ho⟩ := componentsLoop_returns env scheds isDel kubeconfigs
      (if isDel then "removing" else "deploying") (if isDel then "removed" else "deployed")
      comps 0 [] [] [] (msg, some err) hret
    have hlen := outcomes_length env scheds isDel kubeconfigs comps 0 outs ho
    have heq := HandleComponents_eq env scheds comps isDel kubeconfigs outs ho
    obtain ⟨_, _, _, h4, h5⟩ :=
      componentEffects_props env (statusDoing isDel) (statusDone isDel) comps 0 outs hlen
    rw [heq] at hret
    simp only [Option.some.injEq, Prod.mk.injEq] at hret
    have hne : failures outs ≠ [] := by
      intro hnil
      have := hret.2
      rw [hnil] at this
      cases this
    have hcount := countP_failed_eq_length outs
    refine ⟨outs, ho, ?_, ?_, ?_⟩
    · rw [heq]
      exact h5
    · exact List.length_pos.mpr hne
    · rw [heq]
      exact h4.trans hcount

/-- Witness for C3: the request for the unsupported name `legacy` returns the failure it has
emitted; the failures of credential setup and of catalog loading come back with no effect;
and for the components `bare`, `mesh`, `bare` the two handler failures were emitted in
order. -/
theorem returned_failure_was_emitted_witness :
    (∃ e, Effect.StreamErr e demoEnv.ErrOpInvalid
      ∈ (ApplyOperation demoEnv legacyRequest [0, 1, 2]).trace)
    ∧ ApplyOperation demoEnvNoCredentials httpbinRequest [0, 1, 2]
        = ⟨[], some (some ⟨ErrKind.collaborator, "cannot write kubeconfig"⟩)⟩
    ∧ ApplyOperation demoEnvNoCatalog httpbinRequest [0, 1, 2]
        = ⟨[], some (some ⟨ErrKind.collaborator, "cannot load operations"⟩)⟩
    ∧ (∃ outs : List (String × Option GoError),
        ([bare, mesh, bare].enumFrom 0).map
            (fun p => callHandler demoEnv (fun _ => [0, 1, 2]) false ["k1"] p.1 p.2)
          = outs.map some
        ∧ (HandleComponents demoEnv (fun _ => [0, 1, 2]) [bare, mesh, bare] false
            ["k1"]).trace.filterMap Effect.failure = outs.filterMap Prod.snd
        ∧ 0 < (outs.filterMap Prod.snd).length
        ∧ (HandleComponents demoEnv (fun _ => [0, 1, 2]) [bare, mesh, bare] false
            ["k1"]).trace.countP Effect.isErr = (outs.filterMap Prod.snd).length) :=
  ⟨(returned_failure_was_emitted demoEnv).1 legacyRequest [0, 1, 2] demoCatalog
      demoEnv.ErrOpInvalid rfl rfl (by decide),
    (returned_failure_was_emitted demoEnvNoCredentials).2.1 httpbinRequest [0, 1, 2]
      ⟨ErrKind.collaborator, "cannot write kubeconfig"⟩ rfl,
    (returned_failure_was_emitted demoEnvNoCatalog).2.2.1 httpbinRequest [0, 1, 2]
      ⟨ErrKind.collaborator, "cannot load operations"⟩ rfl rfl,
    (returned_failure_was_emitted demoEnv).2.2.2 (fun _ => [0, 1, 2]) [bare, mesh, bare] false
      ["k1"] "mesh: installed"
      ⟨ErrKind.fmtError,
        "failed to get API Version for: bare\nfailed to get API Version for: bare"⟩
      (by decide)⟩

/-- Counterexample for C3: when the target credentials cannot be set up, and likewise when the
catalog cannot be loaded, `ApplyOperation` returns that failure having emitted no event at
all. For the components `bare`, `mesh`, `bare` `HandleComponents` returns the aggregate with
the two-line text, while its two failure events carry the two resolution failures: no event
carries the returned failure. -/
theorem ApplyOperation_failure_without_event :
    ApplyOperation demoEnvNoCredentials httpbinRequest [0, 1, 2]
      = ⟨[], some (some ⟨ErrKind.collaborator, "cannot write kubeconfig"⟩)⟩
    ∧ (ApplyOperation demoEnvNoCredentials httpbinRequest [0, 1, 2]).trace.countP Effect.isErr
      = 0
    ∧ ApplyOperation demoEnvNoCatalog httpbinRequest [0, 1, 2]
      = ⟨[], some (some ⟨ErrKind.collaborator, "cannot load operations"⟩)⟩
    ∧ (HandleComponents demoEnv (fun _ => [0, 1, 2]) [bare, mesh, bare] false ["k1"]).ret
      = some ("mesh: installed",
          some ⟨ErrKind.fmtError,
            "failed to get API Version for: bare\nfailed to get API Version for: bare"⟩)
    ∧ (HandleComponents demoEnv (fun _ => [0, 1, 2]) [bare, mesh, bare] false
        ["k1"]).trace.filterMap Effect.failure
      = [⟨ErrKind.consulCoreComponentFail, "failed to get API Version for: bare"⟩,
         ⟨ErrKind.consulCoreComponentFail, "failed to get API Version for: bare"⟩] := by
  decide

end Consul
